import Mathlib

/-!
A shallow embedding, in Lean 4, of the core data structures and operations of
the ConcoLLMic concolic-execution engine (Python), together with proofs about
them.  Python dictionaries are modelled as association lists, Python `int` as
`Int` (or `Nat` where the code only ever holds naturals), float arithmetic on
small ratios as `ℚ`, and fallible Python code (KeyError, IndexError, failed
`assert`, raised exceptions) as `Except String`.
-/

deriving instance DecidableEq for Except

namespace ConcoLLMic

/-! ## Python-style string helpers -/

/-- Python `str.isspace` characters (ASCII fragment, which is all the engine
uses): space, tab, newline, carriage return, vertical tab, form feed. -/
def pyIsSpace (c : Char) : Bool :=
  c = ' ' || c = '\t' || c = '\n' || c = '\r' || c = '\x0b' || c = '\x0c'

/-- Strip whitespace from both ends of a character list (Python `str.strip`). -/
def pyStripList (cs : List Char) : List Char :=
  ((cs.dropWhile pyIsSpace).reverse.dropWhile pyIsSpace).reverse

/-- Python `str.strip()`. -/
def pyStrip (s : String) : String := String.mk (pyStripList s.data)

/-- Number of leading whitespace characters, i.e. Python
`len(line) - len(line.lstrip())`. -/
def leadingSpaceCount (s : String) : Nat := (s.data.takeWhile pyIsSpace).length

/-- Split a character list on a separator character (Python `s.split(sep)`
for a one-character separator; `"".split(sep) = [""]`). -/
def splitOnChar (sep : Char) : List Char → List (List Char)
  | [] => [[]]
  | c :: t =>
    match splitOnChar sep t with
    | [] => [[]]
    | h :: r => if c = sep then [] :: h :: r else (c :: h) :: r

/-- Python `s.split("\n")`. -/
def pySplitLines (s : String) : List String :=
  (splitOnChar '\n' s.data).map String.mk

/-- Python `sep.join(parts)`. -/
def strJoin (sep : String) : List String → String
  | [] => ""
  | h :: t => t.foldl (fun acc x => acc ++ sep ++ x) h

/-- Python `s.startswith(pre)`. -/
def pyStartsWith (s pre : String) : Bool := pre.data.isPrefixOf s.data

/-- Substring search on character lists (Python `sub in hay`). -/
def containsSub (hay sub : List Char) : Bool :=
  match hay with
  | [] => sub.isEmpty
  | _ :: t => sub.isPrefixOf hay || containsSub t sub

/-- Python `sub in s` for strings. -/
def strContains (s sub : String) : Bool := containsSub s.data sub.data

/-- Python `str.lower()` (ASCII fragment). -/
def pyLower (s : String) : String := String.mk (s.data.map Char.toLower)

/-! ## Decimal printing and parsing of integers

The engine formats integers with f-strings and parses them back with `int()`;
we implement the printer and parser directly and prove the round trip. -/

/-- The decimal digit character for `n < 10`. -/
def digitChar (n : Nat) : Char := Char.ofNat (48 + n)

/-- Fuel-driven decimal digit expansion (structural recursion so that the
kernel can evaluate it; the fallback arm is unreachable for fuel ≥ n). -/
def natDigitsFuel : Nat → Nat → List Char → List Char
  | 0, n, acc => digitChar (n % 10) :: acc
  | fuel + 1, n, acc =>
    if n < 10 then digitChar n :: acc
    else natDigitsFuel fuel (n / 10) (digitChar (n % 10) :: acc)

/-- Accumulator-style decimal digit expansion. -/
def natToDigitsAux (n : Nat) (acc : List Char) : List Char :=
  natDigitsFuel n n acc

/-- Decimal representation of a natural number. -/
def natToString (n : Nat) : String := String.mk (natToDigitsAux n [])

/-- Decimal representation of a Python int. -/
def pyIntToStr (i : Int) : String :=
  if i < 0 then "-" ++ natToString i.natAbs else natToString i.natAbs

/-- Value of a digit list (most significant first). -/
def digitsVal (cs : List Char) : Nat :=
  cs.foldl (fun a c => 10 * a + (c.toNat - 48)) 0

/-- Parse a non-empty all-digit character list (helper for Python `int()`). -/
def parseDigits (cs : List Char) : Option Nat :=
  if cs ≠ [] ∧ cs.all Char.isDigit then some (digitsVal cs) else none

/-- Python `int(s)` (ASCII fragment: optional surrounding whitespace, optional
sign, one or more decimal digits). -/
def pyInt (s : String) : Option Int :=
  match pyStripList s.data with
  | [] => none
  | c :: rest =>
    if c = '-' then (parseDigits rest).map (fun n => -(n : Int))
    else if c = '+' then (parseDigits rest).map (fun n => (n : Int))
    else (parseDigits (c :: rest)).map (fun n => (n : Int))

theorem natDigitsFuel_adequate (fuel fuel' n : Nat) (acc : List Char)
    (h : n ≤ fuel) (h' : n ≤ fuel') :
    natDigitsFuel fuel n acc = natDigitsFuel fuel' n acc := by
  induction fuel generalizing fuel' n acc with
  | zero =>
    have hn : n = 0 := by omega
    subst hn
    cases fuel' with
    | zero => rfl
    | succ f => simp [natDigitsFuel]
  | succ f ih =>
    cases fuel' with
    | zero =>
      have hn : n = 0 := by omega
      subst hn
      simp [natDigitsFuel]
    | succ f' =>
      simp only [natDigitsFuel]
      by_cases hlt : n < 10
      · simp [hlt]
      · simp only [hlt, if_false]
        have hd : n / 10 < n := Nat.div_lt_self (by omega) (by omega)
        exact ih f' (n / 10) _ (by omega) (by omega)

theorem natToDigitsAux_def (n : Nat) (acc : List Char) :
    natToDigitsAux n acc =
      if n < 10 then digitChar n :: acc
      else natToDigitsAux (n / 10) (digitChar (n % 10) :: acc) := by
  unfold natToDigitsAux
  by_cases h : n < 10
  · cases n with
    | zero => simp [natDigitsFuel]
    | succ m => simp [natDigitsFuel, h]
  · have hck : natDigitsFuel n n acc = natDigitsFuel (n - 1) (n / 10) (digitChar (n % 10) :: acc) := by
      cases n with
      | zero => omega
      | succ m =>
        simp only [natDigitsFuel, h, if_false]
        rfl
    rw [hck, if_neg h]
    exact natDigitsFuel_adequate (n - 1) (n / 10) (n / 10) _ (by omega) (by omega)

theorem digitChar_isDigit {n : Nat} (h : n < 10) : (digitChar n).isDigit = true := by
  interval_cases n <;> decide

theorem digitChar_toNat {n : Nat} (h : n < 10) : (digitChar n).toNat - 48 = n := by
  interval_cases n <;> decide

theorem natToDigitsAux_eq_append (n : Nat) (acc : List Char) :
    natToDigitsAux n acc = natToDigitsAux n [] ++ acc := by
  induction n using Nat.strong_induction_on generalizing acc with
  | _ n ih =>
    by_cases h : n < 10
    · rw [natToDigitsAux_def n acc, natToDigitsAux_def n []]
      simp [h]
    · rw [natToDigitsAux_def n acc, natToDigitsAux_def n []]
      simp only [h, if_false]
      rw [ih (n / 10) (Nat.div_lt_self (by omega) (by omega)),
        ih (n / 10) (Nat.div_lt_self (by omega) (by omega)) [digitChar (n % 10)]]
      simp

theorem natToDigitsAux_ne_nil (n : Nat) : natToDigitsAux n [] ≠ [] := by
  rw [natToDigitsAux_def]
  by_cases h : n < 10
  · simp [h]
  · simp only [h, if_false]
    rw [natToDigitsAux_eq_append]
    simp

theorem natToDigitsAux_all_digits (n : Nat) :
    (natToDigitsAux n []).all Char.isDigit = true := by
  induction n using Nat.strong_induction_on with
  | _ n ih =>
    rw [natToDigitsAux_def]
    by_cases h : n < 10
    · simp [h, digitChar_isDigit h]
    · simp only [h, if_false]
      rw [natToDigitsAux_eq_append]
      simp only [List.all_append, Bool.and_eq_true]
      refine And.intro (ih (n / 10) (Nat.div_lt_self (by omega) (by omega))) ?_
      simp [digitChar_isDigit (Nat.mod_lt n (by omega))]

theorem digitsVal_append_single (cs : List Char) (c : Char) :
    digitsVal (cs ++ [c]) = 10 * digitsVal cs + (c.toNat - 48) := by
  simp [digitsVal]

theorem digitsVal_natToDigitsAux (n : Nat) : digitsVal (natToDigitsAux n []) = n := by
  induction n using Nat.strong_induction_on with
  | _ n ih =>
    rw [natToDigitsAux_def]
    by_cases h : n < 10
    · simp [h, digitsVal, digitChar_toNat h]
    · simp only [h, if_false]
      rw [natToDigitsAux_eq_append, digitsVal_append_single,
        ih (n / 10) (Nat.div_lt_self (by omega) (by omega)),
        digitChar_toNat (Nat.mod_lt n (by omega))]
      omega

theorem parseDigits_natToString (n : Nat) :
    parseDigits (natToString n).data = some n := by
  simp [natToString, parseDigits, natToDigitsAux_ne_nil, natToDigitsAux_all_digits,
    digitsVal_natToDigitsAux]

theorem digit_not_space {c : Char} (h : c.isDigit = true) : pyIsSpace c = false := by
  by_contra hc
  simp only [pyIsSpace, Bool.not_eq_false, Bool.or_eq_true, decide_eq_true_eq] at hc
  rcases hc with ((((rfl | rfl) | rfl) | rfl) | rfl) | rfl <;> exact absurd h (by decide)

theorem dropWhile_eq_self_of_false {p : Char → Bool} {l : List Char}
    (h : ∀ c ∈ l, p c = false) : l.dropWhile p = l := by
  cases l with
  | nil => rfl
  | cons c t => simp [List.dropWhile_cons, h c (by simp)]

theorem pyStripList_all_digits {cs : List Char} (h : cs.all Char.isDigit = true) :
    pyStripList cs = cs := by
  have hnospace : ∀ c ∈ cs, pyIsSpace c = false := by
    intro c hc
    exact digit_not_space (by simp only [List.all_eq_true] at h; exact h c hc)
  unfold pyStripList
  rw [dropWhile_eq_self_of_false hnospace,
    dropWhile_eq_self_of_false (by intro c hc; exact hnospace c (by simpa using hc)),
    List.reverse_reverse]

/-- Round trip for non-negative integers: the engine prints them with an
f-string and reads them back with `int()`. -/
theorem pyInt_natToString (n : Nat) : pyInt (natToString n) = some (n : Int) := by
  have hall := natToDigitsAux_all_digits n
  have hne := natToDigitsAux_ne_nil n
  have hparse := parseDigits_natToString n
  unfold pyInt
  have hdata : (natToString n).data = natToDigitsAux n [] := rfl
  rw [hdata, pyStripList_all_digits hall]
  rw [hdata] at hparse
  cases hcs : natToDigitsAux n [] with
  | nil => exact absurd hcs hne
  | cons c t =>
    have hcdig : c.isDigit = true := by
      rw [hcs] at hall
      simp only [List.all_cons, Bool.and_eq_true] at hall
      exact hall.1
    have hc1 : c ≠ '-' := by rintro rfl; exact absurd hcdig (by decide)
    have hc2 : c ≠ '+' := by rintro rfl; exact absurd hcdig (by decide)
    rw [hcs] at hparse
    simp [hc1, hc2, hparse]

/-! ## Association lists: the model of Python dictionaries

Insertion order is preserved; assignment to an existing key replaces its value
in place, assignment to a fresh key appends (CPython semantics). -/

/-- Python `d.get(k)` / `d[k]` lookup. -/
def alookup {α β : Type} [DecidableEq α] (k : α) : List (α × β) → Option β
  | [] => none
  | (a, b) :: t => if a = k then some b else alookup k t

/-- Python `d.get(k, dflt)`. -/
def aget {α β : Type} [DecidableEq α] (m : List (α × β)) (k : α) (d : β) : β :=
  (alookup k m).getD d

/-- Python `d[k] = v`. -/
def aset {α β : Type} [DecidableEq α] : List (α × β) → α → β → List (α × β)
  | [], k, v => [(k, v)]
  | (a, b) :: t, k, v => if a = k then (k, v) :: t else (a, b) :: aset t k v

theorem alookup_aset {α β : Type} [DecidableEq α] (m : List (α × β)) (k k' : α) (v : β) :
    alookup k' (aset m k v) = if k' = k then some v else alookup k' m := by
  induction m with
  | nil =>
    by_cases h : k' = k
    · subst h; simp [aset, alookup]
    · have h2 : ¬ k = k' := fun hc => h hc.symm
      simp [aset, alookup, h, h2]
  | cons p t ih =>
    obtain ⟨a, b⟩ := p
    by_cases hak : a = k
    · subst hak
      by_cases h : k' = a
      · subst h; simp [aset, alookup]
      · have h2 : ¬ a = k' := fun hc => h hc.symm
        simp [aset, alookup, h, h2]
    · simp only [aset, if_neg hak, alookup]
      by_cases h : a = k'
      · subst h
        simp [hak]
      · simp [h, ih]

theorem aget_aset {α β : Type} [DecidableEq α] (m : List (α × β)) (k k' : α) (v d : β) :
    aget (aset m k v) k' d = if k' = k then v else aget m k' d := by
  simp only [aget, alookup_aset]
  by_cases h : k' = k <;> simp [h]

/-! ## Rounding and percentage formatting

The Python code formats small ratios of machine ints with `f"{x:.1%}"` and
`f"{x:.0%}"`.  We model the ratios exactly in `ℚ` and the `printf`-style
rounding as round-half-even on the rational value (CPython rounds the nearest
binary double; on the ratios of small integers the engine produces the two
agree except on knife-edge ties, which none of the proved statements
depend on). -/

/-- Round `x * scale` half to even, computed on the numerator/denominator
pair so that the kernel can evaluate it. -/
def roundHalfEvenScaled (x : ℚ) (scale : Int) : Int :=
  let n := x.num * scale
  let d := (x.den : Int)
  let f := Int.fdiv n d
  let rnum := n - f * d
  if 2 * rnum < d then f
  else if 2 * rnum > d then f + 1
  else if f % 2 = 0 then f else f + 1

/-- Python `f"{x:.1%}"`: percentage with one decimal digit (round half to
even on the exact rational). -/
def formatPercent1 (x : ℚ) : String :=
  let n := roundHalfEvenScaled x 1000
  let sign := if n < 0 then "-" else ""
  sign ++ natToString (n.natAbs / 10) ++ "." ++ natToString (n.natAbs % 10) ++ "%"

/-- `math.ceil(a / b * 100)` on the exact rational, computed at the integer
level: `⌈100a / b⌉ = -⌊-100a / b⌋`. -/
def ceilPct (a b : Nat) : Int := -(Int.fdiv (-(100 * (a : Int))) (b : Int))

/-! ## Spec-modelled external utilities

`app/utils/utils.py` is not part of the sources under verification; the
definitions below are modelled from the specification. -/

/-- Modelled from the spec: `estimate_text_token` (app/utils/utils.py, absent
from src/) estimates tokens "at ≈3.5 chars/token"; we take the ceiling of
`len / 3.5`.  Every theorem that depends on it only uses monotonicity in the
string length. -/
def estimate_text_token (s : String) : Nat := (2 * s.length + 6) / 7

theorem estimate_text_token_mono {s t : String} (h : s.length ≤ t.length) :
    estimate_text_token s ≤ estimate_text_token t := by
  simp only [estimate_text_token]
  omega

/-- `wrap_between_tags` from app/agents/common.py. -/
def wrap_between_tags (tag s : String) : String :=
  "<" ++ tag ++ ">" ++ s ++ "</" ++ tag ++ ">"

/-- Python `str(x)` for an optional string (`None` prints as `"None"`),
as happens when an f-string interpolates an optional field. -/
def pyStrOpt (o : Option String) : String := o.getD "None"

/-- `os.path.normpath` (POSIX rules): collapse `//` and `/./`, resolve `..`
against preceding components, preserve a leading `/` (or exactly two), map the
empty path to `.`. -/
def normpathComps (comps : List String) (initialSlashes : Nat) : List String :=
  comps.foldl
    (fun acc comp =>
      if comp = "" ∨ comp = "." then acc
      else if comp ≠ ".." ∨ (initialSlashes = 0 ∧ acc = []) ∨
          (acc ≠ [] ∧ acc.getLast? = some "..") then acc ++ [comp]
      else if acc ≠ [] then acc.dropLast
      else acc)
    []

/-- Python `os.path.normpath` for POSIX paths. -/
def normpath (path : String) : String :=
  if path = "" then "."
  else
    let initialSlashes : Nat :=
      if pyStartsWith path "//" ∧ ¬ pyStartsWith path "///" then 2
      else if pyStartsWith path "/" then 1
      else 0
    let comps := normpathComps ((splitOnChar '/' path.data).map String.mk) initialSlashes
    let joined := strJoin "/" comps
    let out := String.mk (List.replicate initialSlashes '/') ++ joined
    if out = "" then "." else out

/-! ## Test-case state machine (app/agents/states.py) -/

/-- Execution states for the per-test-case state machine. -/
inductive TestcaseState where
  | SELECT
  | SUMMARIZE
  | SOLVE
  | EXECUTE
  | REVIEW_SOLVER
  | REVIEW_SOLVER_EXECUTE
  | REVIEW_SUMMARY
  | REVIEW_SUMMARY_SOLVE
  | REVIEW_SUMMARY_EXECUTE
  | FINISHED
deriving DecidableEq, Repr

/-- Python `str(state)`, i.e. `self.name`. -/
def TestcaseState.toName : TestcaseState → String
  | .SELECT => "SELECT"
  | .SUMMARIZE => "SUMMARIZE"
  | .SOLVE => "SOLVE"
  | .EXECUTE => "EXECUTE"
  | .REVIEW_SOLVER => "REVIEW_SOLVER"
  | .REVIEW_SOLVER_EXECUTE => "REVIEW_SOLVER_EXECUTE"
  | .REVIEW_SUMMARY => "REVIEW_SUMMARY"
  | .REVIEW_SUMMARY_SOLVE => "REVIEW_SUMMARY_SOLVE"
  | .REVIEW_SUMMARY_EXECUTE => "REVIEW_SUMMARY_EXECUTE"
  | .FINISHED => "FINISHED"

/-- Python `TestcaseState[name]` (KeyError modelled as `none`). -/
def TestcaseState.fromName (s : String) : Option TestcaseState :=
  if s = "SELECT" then some .SELECT
  else if s = "SUMMARIZE" then some .SUMMARIZE
  else if s = "SOLVE" then some .SOLVE
  else if s = "EXECUTE" then some .EXECUTE
  else if s = "REVIEW_SOLVER" then some .REVIEW_SOLVER
  else if s = "REVIEW_SOLVER_EXECUTE" then some .REVIEW_SOLVER_EXECUTE
  else if s = "REVIEW_SUMMARY" then some .REVIEW_SUMMARY
  else if s = "REVIEW_SUMMARY_SOLVE" then some .REVIEW_SUMMARY_SOLVE
  else if s = "REVIEW_SUMMARY_EXECUTE" then some .REVIEW_SUMMARY_EXECUTE
  else if s = "FINISHED" then some .FINISHED
  else none

theorem TestcaseState.fromName_toName (s : TestcaseState) : fromName s.toName = some s := by
  cases s <;> decide

/-! ## Cost accounting (spec-modelled) -/

/-- Modelled from the spec: the `Usage` record lives in app/model/common.py,
which is not under src/.  Per spec §4.6 a usage record carries input tokens,
output tokens, cache-read, cache-write, cost, latency and call count; its
pydantic `model_dump`/`model_validate` pair is modelled as the identity on
this record. -/
structure Usage where
  input_tokens : Nat := 0
  output_tokens : Nat := 0
  cache_read_tokens : Nat := 0
  cache_write_tokens : Nat := 0
  cost : ℚ := 0
  latency : ℚ := 0
  call_cnt : Nat := 0
deriving DecidableEq, Repr

/-- A value of the in-memory `TestCase.usage` dict: either a bare `Usage`
(the top-level `TOTAL` entry) or a per-state group of usage records, which by
construction always contains a `TOTAL` key. -/
inductive UsageEntry where
  | single (u : Usage)
  | group (entries : List (String × Usage))
deriving DecidableEq, Repr

/-- The serialized (dumped) form of a usage value, as written to the YAML
text by `TestCaseYAML.format_usage_dict` (external YAML identity assumed). -/
inductive UsageTree where
  | leaf (u : Usage)
  | node (entries : List (String × Usage))
deriving DecidableEq, Repr

/-- The `usage` attribute of a test case.  It is a dict in every test case the
engine itself builds; `process_dict_from_yaml` leaves it as the raw serialized
text when `parse_usage_dict` raises. -/
inductive UsageField where
  | parsed (d : List (String × UsageEntry))
  | unparsed (raw : List (String × UsageTree))
deriving DecidableEq, Repr

/-! ## Test case entity (app/agents/testcase.py) -/

/-- The serialized attributes of a `TestCase` (the dataclass fields minus the
non-serialized `_out_dir`/`_in_setattr`).  `create_time` is kept as the string
the default factory produced. -/
structure TestCase where
  id : Int
  src_id : Option Int := none
  create_time : String := ""
  time_taken : Option Int := none
  states : List TestcaseState := []
  is_target_covered : Bool := false
  new_coverage : Bool := false
  newly_covered_lines : Int := 0
  is_satisfiable : Bool := false
  is_crash : Bool := false
  is_hang : Bool := false
  usage : UsageField := .parsed [("TOTAL", .single {})]
  target_branch : Option String := none
  target_file_lines : Option String × (Option Int × Option Int) := (none, (none, none))
  target_lines_content : Option String := none
  justification : Option String := none
  target_path_constraint : Option String := none
  selected_cnt : Int := 0
  successful_generation_cnt : Int := 0
  exec_code : Option String := none
  returncode : Option Int := none
  src_execution_summary : Option String := none
  crash_info : Option String := none
  execution_trace : Option String := none
  execution_summary : Option String := none
  src_exec_code : Option String := none
  src_execution_trace : Option String := none
deriving DecidableEq, Repr

/-- `TestCase.is_valuable`. -/
def TestCase.is_valuable (tc : TestCase) : Bool :=
  tc.is_target_covered || tc.new_coverage

/-- `TestCase.is_crash_or_hang`. -/
def TestCase.is_crash_or_hang (tc : TestCase) : Bool :=
  tc.is_crash || tc.is_hang

/-- `TestCase.create_initial` (testcase.py:365-400).  The `assert
newly_covered_lines > 0` is modelled as an error; `now` stands for the
`datetime.now()` default factory of `create_time`.  The disk write performed
when `out_dir` is set is modelled separately via `TestCase.to_dict`. -/
def TestCase.create_initial (now : String) (id : Int)
    (exec_code execution_trace execution_summary : String)
    (newly_covered_lines : Int) : Except String TestCase :=
  if newly_covered_lines > 0 then
    .ok { id := id
          src_id := none
          create_time := now
          time_taken := some 0
          src_exec_code := none
          src_execution_trace := none
          exec_code := some exec_code
          execution_trace := some execution_trace
          execution_summary := some execution_summary
          new_coverage := true
          newly_covered_lines := newly_covered_lines
          is_target_covered := true
          states := [.FINISHED] }
  else .error "Initial test case should always provide new coverage"

/-- `TestCase.get_historical_information` (testcase.py:605-618); its `assert`
is modelled as an error. -/
def TestCase.get_historical_information (tc : TestCase) : Except String (Int × Int) :=
  let failure_cnt := tc.selected_cnt - tc.successful_generation_cnt
  if failure_cnt ≤ tc.selected_cnt then .ok (failure_cnt, tc.selected_cnt)
  else .error "assert failure_cnt <= self.selected_cnt"

/-! ## Corpus manager (app/agents/testcase.py, TestCaseManager) -/

/-- The in-memory state of `TestCaseManager`: the id-indexed corpus map
(insertion-ordered dict) and the next-id counter. -/
structure TestCaseManager where
  out_dir : String
  test_cases : List (Int × TestCase) := []
  next_testcase_id : Int := 0
deriving DecidableEq, Repr

/-- `TestCaseManager.add_initial_testcase` (testcase.py:642-663). -/
def TestCaseManager.add_initial_testcase (mgr : TestCaseManager) (now : String)
    (exec_code execution_trace execution_summary : String)
    (newly_covered_lines : Int) : Except String (TestCase × TestCaseManager) :=
  match TestCase.create_initial now mgr.next_testcase_id exec_code
      execution_trace execution_summary newly_covered_lines with
  | .error e => .error e
  | .ok tc =>
    .ok (tc, { mgr with
                test_cases := aset mgr.test_cases mgr.next_testcase_id tc
                next_testcase_id := mgr.next_testcase_id + 1 })

/-- C9: every seed test case — created with `src_id = None` via
`TestCase.create_initial` or `TestCaseManager.add_initial_testcase` — has
state list exactly `[FINISHED]`, `new_coverage = True`,
`is_target_covered = True`, and its creation requires
`newly_covered_lines > 0`. -/
theorem seed_testcase_invariants (now : String) (id : Int) (ec tr sm : String)
    (ncl : Int) (tc : TestCase) (mgr mgr' : TestCaseManager) (tc' : TestCase)
    (h1 : TestCase.create_initial now id ec tr sm ncl = .ok tc)
    (h2 : mgr.add_initial_testcase now ec tr sm ncl = .ok (tc', mgr')) :
    (tc.src_id = none ∧ tc.states = [.FINISHED] ∧ tc.new_coverage = true ∧
      tc.is_target_covered = true ∧ ncl > 0) ∧
    (tc'.src_id = none ∧ tc'.states = [.FINISHED] ∧ tc'.new_coverage = true ∧
      tc'.is_target_covered = true) := by
  unfold TestCase.create_initial at h1
  unfold TestCaseManager.add_initial_testcase TestCase.create_initial at h2
  by_cases h : ncl > 0
  · simp only [h, if_pos, Except.ok.injEq] at h1
    simp only [h, if_pos] at h2
    simp only [Except.ok.injEq, Prod.mk.injEq] at h2
    subst h1
    obtain ⟨h2a, _⟩ := h2
    subst h2a
    exact ⟨⟨rfl, rfl, rfl, rfl, h⟩, rfl, rfl, rfl, rfl⟩
  · simp [h] at h1

/-- The seed test case used in witnesses. -/
def seedW : TestCase :=
  { id := 0, create_time := "t0", time_taken := some 0,
    exec_code := some "print(1)", execution_trace := some "enter main 1",
    execution_summary := some "sum", new_coverage := true,
    newly_covered_lines := 3, is_target_covered := true,
    states := [.FINISHED] }

/-- The empty corpus manager used in witnesses. -/
def mgrW : TestCaseManager := { out_dir := "o" }

/-- Witness for C9 at a concrete seed. -/
theorem seed_testcase_invariants_witness :
    seedW.src_id = none ∧ seedW.states = [.FINISHED] ∧ seedW.new_coverage = true ∧
      seedW.is_target_covered = true ∧ (3 : Int) > 0 :=
  (seed_testcase_invariants "t0" 0 "print(1)" "enter main 1" "sum" 3 seedW mgrW
    { out_dir := "o", test_cases := [(0, seedW)], next_testcase_id := 1 } seedW
    rfl rfl).1

/-! ## Trace markers (app/agents/common.py, app/agents/trace.py)

`TRACE_PATTERN = r".*?(enter|exit)\s+([^\s]+)\s+(\d+).*?"` applied with
`re.match`, and `FILE_TRACE_PATTERN = r"\[([^\s\]]+)\]\s+(enter|exit)\s+([^\s]+)\s+(\d+)"`
applied with `re.findall`.  Because every quantified piece is either the lazy
leading `.*?` (searching for the earliest start position) or a greedy
character-class run that is immediately followed by a class its own characters
cannot satisfy, the regex backtracking is deterministic and is implemented
below by direct scanning.  `\s`/`\d` are modelled on their ASCII fragment. -/

/-- A block identifier `(function name, block id)`. -/
abbrev Block := String × Nat

/-- The synthetic whole-file block. -/
def GLOBAL_BLOCK : Block := ("Global", 0)

/-- The pseudo-block marking instrumentation-only lines. -/
def INSTRUMENT_BLOCK : Block := ("Instrumentation", 0)

/-- Match `(enter|exit)\s+([^\s]+)\s+(\d+)` at the head of `cs`, returning the
three groups. -/
def matchMarkerAt (cs : List Char) : Option (String × String × Nat) :=
  let act : String × Nat :=
    if "enter".data.isPrefixOf cs then ("enter", 5)
    else if "exit".data.isPrefixOf cs then ("exit", 4)
    else ("", 0)
  if act.2 = 0 then none
  else
    let r1 := cs.drop act.2
    let ws1 := (r1.takeWhile pyIsSpace).length
    if ws1 = 0 then none
    else
      let r2 := r1.drop ws1
      let fn := r2.takeWhile (fun c => !pyIsSpace c)
      if fn.length = 0 then none
      else
        let r3 := r2.drop fn.length
        let ws2 := (r3.takeWhile pyIsSpace).length
        if ws2 = 0 then none
        else
          let r4 := r3.drop ws2
          let ds := r4.takeWhile Char.isDigit
          if ds.length = 0 then none
          else some (act.1, String.mk fn, digitsVal ds)

/-- `re.match(TRACE_PATTERN, s)`: thanks to the lazy `.*?` head this is a
search for the leftmost position where the marker core matches. -/
def findMarker : List Char → Option (String × String × Nat)
  | [] => none
  | c :: t =>
    match matchMarkerAt (c :: t) with
    | some g => some g
    | none => findMarker t

/-- `get_executed_blocks` (trace.py:586-597): the set of blocks named by the
trace, always containing `GLOBAL_BLOCK`.  The Python `set` is modelled as an
insertion-ordered duplicate-free list (no property proved below depends on
iteration order). -/
def get_executed_blocks (trace_str : String) : List Block :=
  (pySplitLines trace_str).foldl
    (fun acc line =>
      match findMarker (pyStrip line).data with
      | some (_, func_name, bb_id) =>
        if (func_name, bb_id) ∈ acc then acc else acc ++ [(func_name, bb_id)]
      | none => acc)
    [GLOBAL_BLOCK]

/-- Match `FILE_TRACE_PATTERN` at the head of `cs`; returns the four groups
`(file, action, func, block id)` and the number of characters consumed. -/
def matchFileMarkerAt (cs : List Char) : Option ((String × String × String × Nat) × Nat) :=
  match cs with
  | '[' :: r0 =>
    let fl := (r0.takeWhile (fun c => !pyIsSpace c && c ≠ ']')).length
    if fl = 0 then none
    else
      match r0.drop fl with
      | ']' :: r2 =>
        let ws1 := (r2.takeWhile pyIsSpace).length
        if ws1 = 0 then none
        else
          let r3 := r2.drop ws1
          let act : String × Nat :=
            if "enter".data.isPrefixOf r3 then ("enter", 5)
            else if "exit".data.isPrefixOf r3 then ("exit", 4)
            else ("", 0)
          if act.2 = 0 then none
          else
            let r4 := r3.drop act.2
            let ws2 := (r4.takeWhile pyIsSpace).length
            if ws2 = 0 then none
            else
              let r5 := r4.drop ws2
              let fnl := (r5.takeWhile (fun c => !pyIsSpace c)).length
              if fnl = 0 then none
              else
                let r6 := r5.drop fnl
                let ws3 := (r6.takeWhile pyIsSpace).length
                if ws3 = 0 then none
                else
                  let r7 := r6.drop ws3
                  let ds := r7.takeWhile Char.isDigit
                  if ds.length = 0 then none
                  else some ((String.mk (r0.take fl), act.1,
                      String.mk (r5.take fnl), digitsVal ds),
                    2 + fl + ws1 + act.2 + ws2 + fnl + ws3 + ds.length)
      | _ => none
  | _ => none

/-- Fuel-driven scan for `re.findall` (structural recursion so that the
kernel can evaluate it; every step consumes at least one character, so fuel
equal to the input length never runs out). -/
def findAllFileMarkersFuel : Nat → List Char → List (String × String × String × Nat)
  | 0, _ => []
  | _ + 1, [] => []
  | fuel + 1, c :: t =>
    match matchFileMarkerAt (c :: t) with
    | some (g, k) => g :: findAllFileMarkersFuel fuel (t.drop (k - 1))
    | none => findAllFileMarkersFuel fuel t

/-- `re.findall(FILE_TRACE_PATTERN, s)`: leftmost, non-overlapping matches. -/
def findAllFileMarkers (cs : List Char) : List (String × String × String × Nat) :=
  findAllFileMarkersFuel cs.length cs

/-- Intermediate state of `trace_compress`. -/
structure TraceCompressState where
  last : Option (String × String)
  blocks : List Nat
  chain : List (String × String × List Nat)

/-- One `FILE_TRACE_PATTERN` match step of `trace_compress` (trace.py:617-640).
The per-function block set is modelled as an insertion-ordered duplicate-free
list. -/
def traceCompressStep (st : TraceCompressState) (m : String × String × String × Nat) :
    TraceCompressState :=
  let fileName := m.1
  let action := m.2.1
  let funcName := m.2.2.1
  let blockId := m.2.2.2
  let st1 :=
    match st.last with
    | none => { st with last := some (fileName, funcName) }
    | some l =>
      if (fileName, funcName) ≠ l then
        { last := some (fileName, funcName), blocks := [],
          chain := st.chain ++ [(l.1, l.2, st.blocks)] }
      else st
  if action = "enter" then
    { st1 with blocks := if blockId ∈ st1.blocks then st1.blocks else st1.blocks ++ [blockId] }
  else st1

/-- `trace_compress` (trace.py:600-648): compress a raw trace into the
call chain `[(file, function, blocks seen)]`. -/
def trace_compress (trace : String) : List (String × String × List Nat) :=
  let lines := pySplitLines (pyStrip trace)
  let final := lines.foldl
    (fun st line => (findAllFileMarkers (pyStrip line).data).foldl traceCompressStep st)
    { last := none, blocks := [], chain := [] }
  match final.last with
  | some l => if final.blocks.length > 0 then final.chain ++ [(l.1, l.2, final.blocks)] else final.chain
  | none => final.chain

/-! ## Trace collector state (app/agents/trace.py, TraceCollector) -/

/-- The persistent state of a `TraceCollector`.  Only `block2cov` is mutated
after construction (`summary` is a derived rendering cache, see
`collect_trace` below).  All maps are modelled as insertion-ordered
association lists. -/
structure TraceCollector where
  file_path : String
  comment_token : String
  line2code : List (Nat × String)
  line2blocks : List (Nat × List Block)
  block2cov : List (Block × Nat)
  block2lines : List (Block × (Nat × Nat))
  block2real_lines : List (Block × (Nat × Nat))
  real_line2line : List (Nat × Nat)
  begin_copyright_lines : Nat
  size : Nat
  instrumentation_cnt : Nat
deriving DecidableEq, Repr

/-- Python `d[k]` with `KeyError` modelled as an error. -/
def dictGetE {α β : Type} [DecidableEq α] (name : String) (m : List (α × β)) (k : α) :
    Except String β :=
  match alookup k m with
  | some v => .ok v
  | none => .error ("KeyError: " ++ name)

/-- `TraceCollector.get_line_covered_times` (trace.py:289-290):
`self.block2cov.get(self.line2blocks[line_no][-1], 0)`. -/
def TraceCollector.get_line_covered_times (tc : TraceCollector) (line_no : Nat) :
    Except String Nat :=
  match dictGetE "line2blocks" tc.line2blocks line_no with
  | .error e => .error e
  | .ok stack =>
    match stack.getLast? with
    | none => .error "IndexError: line2blocks[line_no][-1]"
    | some b => .ok (aget tc.block2cov b 0)

/-- `TraceCollector.get_real_line_content` (trace.py:295-296). -/
def TraceCollector.get_real_line_content (tc : TraceCollector) (real_line_no : Nat) :
    Except String String :=
  match dictGetE "real_line2line" tc.real_line2line real_line_no with
  | .error e => .error e
  | .ok line => dictGetE "line2code" tc.line2code line

/-- The per-line hit counts of the target range, i.e. the comprehension
`[self.get_line_covered_times(self.real_line2line[line]) for line in
range(target_lines[0], target_lines[1] + 1)]` (trace.py:328-331 and 450-453). -/
def TraceCollector.target_line_covs (tc : TraceCollector) : List Nat → Except String (List Nat)
  | [] => .ok []
  | line :: rest =>
    match dictGetE "real_line2line" tc.real_line2line line with
    | .error e => .error e
    | .ok l =>
      match tc.get_line_covered_times l with
      | .error e => .error e
      | .ok c =>
        match tc.target_line_covs rest with
        | .error e => .error e
        | .ok cs => .ok (c :: cs)

/-- Python `range(a, b + 1)` over naturals. -/
def pyRangeIncl (a b : Nat) : List Nat := List.range' a (b + 1 - a)

/-- Mutable state threaded through the coverage-update loop of
`collect_trace` (trace.py:333-366). -/
structure CovLoopState where
  cov : List (Block × Nat)
  newLines : Nat
  contents : List (Nat × String)
  globalFirst : Bool
deriving DecidableEq, Repr

/-- The inner per-line loop of a newly covered block (trace.py:347-362).
Python's `and` short-circuits: the `line2blocks` lookups are only evaluated
when the line's stripped content is non-empty. -/
def blockLinesLoop (tc : TraceCollector) (b : Block) :
    List Nat → CovLoopState → Except String CovLoopState
  | [], st => .ok st
  | rl :: rest, st =>
    match tc.get_real_line_content rl with
    | .error e => .error e
    | .ok content =>
      if pyStrip content = "" then blockLinesLoop tc b rest st
      else
        match dictGetE "real_line2line" tc.real_line2line rl with
        | .error e => .error e
        | .ok line =>
          match dictGetE "line2blocks" tc.line2blocks line with
          | .error e => .error e
          | .ok stack =>
            match stack.getLast? with
            | none => .error "IndexError: line2blocks[line][-1]"
            | some leaf =>
              if leaf = b then
                if rl ∈ st.contents.map Prod.fst then
                  .error "assert real_line not in new_covered_line_contents"
                else
                  blockLinesLoop tc b rest
                    { st with newLines := st.newLines + 1,
                              contents := st.contents ++ [(rl, content)] }
              else blockLinesLoop tc b rest st

/-- The per-block coverage-update loop of `collect_trace` (trace.py:337-362):
increment each executed block's hit count; a block going 0 → 1 contributes its
non-empty leaf-owned real lines as newly covered. -/
def covLoop (tc : TraceCollector) :
    List Block → CovLoopState → Except String CovLoopState
  | [], st => .ok st
  | b :: rest, st =>
    let prev := aget st.cov b 0
    let cov2 := aset st.cov b (prev + 1)
    if b = GLOBAL_BLOCK then
      covLoop tc rest { st with cov := cov2, globalFirst := decide (prev = 0) }
    else if prev = 0 then
      match dictGetE "block2real_lines" tc.block2real_lines b with
      | .error e => .error e
      | .ok se =>
        match blockLinesLoop tc b (pyRangeIncl se.1 se.2) { st with cov := cov2 } with
        | .error e => .error e
        | .ok st2 => covLoop tc rest st2
    else covLoop tc rest { st with cov := cov2 }

/-- Result of `TraceCollector.collect_trace`: the returned newly-covered-lines
count and target-covered flag, plus the updated collector. -/
structure CollectResult where
  new_covered_lines : Nat
  is_target_lines_covered : Bool
  collector : TraceCollector
deriving DecidableEq, Repr

/-- `TraceCollector.collect_trace` (trace.py:307-471).  The third component of
the Python return value — the rendered execution summary, a pure function of
the state that only rewrites the `summary` cache (trace.py:385-447) — is not
modelled; the coverage accounting, the `assert`s and the target-line check are
modelled in full. -/
def TraceCollector.collect_trace (tc : TraceCollector) (trace_str : String)
    (target_lines : Option (Nat × Nat)) (add_coverage : Bool) :
    Except String CollectResult :=
  let prevE : Except String (List Nat) :=
    match target_lines with
    | some p => tc.target_line_covs (pyRangeIncl p.1 p.2)
    | none => .ok []
  match prevE with
  | .error e => .error e
  | .ok target_lines_prev_cov =>
    let executed_blocks := get_executed_blocks trace_str
    let loopE : Except String CovLoopState :=
      if add_coverage then
        covLoop tc executed_blocks
          { cov := tc.block2cov, newLines := 0, contents := [], globalFirst := false }
      else .ok { cov := tc.block2cov, newLines := 0, contents := [], globalFirst := false }
    match loopE with
    | .error e => .error e
    | .ok st =>
      if st.globalFirst ∧ st.newLines = 0 then
        .error ("File " ++ tc.file_path ++
          " is newly covered but the count of newly covered lines is 0")
      else
        let tc2 : TraceCollector := { tc with block2cov := st.cov }
        let postE : Except String (List Nat) :=
          match target_lines with
          | some p => tc2.target_line_covs (pyRangeIncl p.1 p.2)
          | none => .ok []
        match postE with
        | .error e => .error e
        | .ok target_lines_cov =>
          let covered : Bool :=
            match target_lines with
            | none => true
            | some _ =>
              ((target_lines_cov.zip target_lines_prev_cov).countP
                (fun q => decide (q.1 > q.2))) > 0
          .ok { new_covered_lines := st.newLines,
                is_target_lines_covered := covered,
                collector := tc2 }

/-- `TraceCollector.get_real_line_coverage` (trace.py:298-304). -/
def TraceCollector.real_line_coverage_aux (tc : TraceCollector) :
    List Nat → Except String (List (Nat × Nat))
  | [] => .ok []
  | rl :: rest =>
    match dictGetE "real_line2line" tc.real_line2line rl with
    | .error e => .error e
    | .ok l =>
      match tc.get_line_covered_times l with
      | .error e => .error e
      | .ok c =>
        match tc.real_line_coverage_aux rest with
        | .error e => .error e
        | .ok m => .ok ((rl, c) :: m)

/-- `TraceCollector.get_real_line_coverage`: hit counts for real lines
`1 .. len(real_line2line)`. -/
def TraceCollector.get_real_line_coverage (tc : TraceCollector) :
    Except String (List (Nat × Nat)) :=
  tc.real_line_coverage_aux (List.range' 1 tc.real_line2line.length)

/-- `TraceCollector.get_function_real_lines` (trace.py:77-85): the set of real
lines owned by blocks of `func_name` (insertion-ordered, duplicate-free). -/
def TraceCollector.get_function_real_lines (tc : TraceCollector) (func_name : String) :
    List Nat :=
  tc.block2real_lines.foldl
    (fun acc bl =>
      if bl.1.1 = func_name then
        (pyRangeIncl bl.2.1 bl.2.2).foldl
          (fun acc2 l => if l ∈ acc2 then acc2 else acc2 ++ [l]) acc
      else acc)
    []

/-- `TraceCollector.get_function_line_cov` (trace.py:87-99). -/
def TraceCollector.func_line_cov_aux (real_line2cov : List (Nat × Nat)) :
    List Nat → Except String Nat
  | [] => .ok 0
  | rl :: rest =>
    match dictGetE "real_line2cov" real_line2cov rl with
    | .error e => .error e
    | .ok c =>
      match TraceCollector.func_line_cov_aux real_line2cov rest with
      | .error e => .error e
      | .ok n => .ok (if c > 0 then n + 1 else n)

/-- `TraceCollector.get_function_line_cov`: `(covered lines, total lines)` of
a function; the `assert` that the function has lines is modelled as an
error. -/
def TraceCollector.get_function_line_cov (tc : TraceCollector) (func_name : String) :
    Except String (Nat × Nat) :=
  match tc.get_real_line_coverage with
  | .error e => .error e
  | .ok real_line2cov =>
    let function_real_lines := tc.get_function_real_lines func_name
    match TraceCollector.func_line_cov_aux real_line2cov function_real_lines with
    | .error e => .error e
    | .ok func_covered_lines =>
      if function_real_lines.length > 0 then
        .ok (func_covered_lines, function_real_lines.length)
      else .error "assert len(function_real_lines) > 0"

/-- `TraceCollector.get_exec_block_cov` (trace.py:101-120). -/
def TraceCollector.exec_block_cov_aux (tc : TraceCollector) (func_name : String)
    (exec_block_ids : List Nat) : List Nat → List Nat → Except String (List Nat)
  | [], execLines => .ok execLines
  | rl :: rest, execLines =>
    match dictGetE "real_line2line" tc.real_line2line rl with
    | .error e => .error e
    | .ok line =>
      if exec_block_ids = [] then tc.exec_block_cov_aux func_name exec_block_ids rest execLines
      else
        match dictGetE "line2blocks" tc.line2blocks line with
        | .error e => .error e
        | .ok stack =>
          match stack.getLast? with
          | none => .error "IndexError: line2blocks[line][-1]"
          | some leaf =>
            if leaf.1 = func_name ∧ leaf.2 ∈ exec_block_ids then
              tc.exec_block_cov_aux func_name exec_block_ids rest
                (if rl ∈ execLines then execLines else execLines ++ [rl])
            else tc.exec_block_cov_aux func_name exec_block_ids rest execLines

/-- `TraceCollector.get_exec_block_cov`: `(lines owned by the executed blocks,
total lines)` of a function; both `assert`s are modelled as errors. -/
def TraceCollector.get_exec_block_cov (tc : TraceCollector) (func_name : String)
    (exec_block_ids : List Nat) : Except String (Nat × Nat) :=
  let function_real_lines := tc.get_function_real_lines func_name
  match tc.exec_block_cov_aux func_name exec_block_ids function_real_lines [] with
  | .error e => .error e
  | .ok exec_lines =>
    if function_real_lines.length > 0 then
      if exec_lines.length ≤ function_real_lines.length then
        .ok (exec_lines.length, function_real_lines.length)
      else .error "assert len(exec_lines) <= len(function_real_lines)"
    else .error "assert len(function_real_lines) > 0"

/-! ## Coverage registry (app/agents/coverage.py) -/

/-- The coverage registry singleton state: the map from normalized file path
to trace collector. -/
structure Coverage where
  file2cov : List (String × TraceCollector)
deriving DecidableEq, Repr

/-- `Coverage.collect_trace` (coverage.py:51-80).  The leading `assert`
requires `add_coverage` whenever target lines are supplied.  Lazily creating a
collector for a path not yet in the registry parses the instrumented source
file from disk (outside the model); it is modelled as an error, and every
statement proved about the registry concerns paths already present. -/
def Coverage.collect_trace (cov : Coverage) (file_path trace : String)
    (target_lines : Option (Nat × Nat)) (add_coverage : Bool) :
    Except String (CollectResult × Coverage) :=
  if target_lines ≠ none ∧ add_coverage = false then
    .error "assert: add_coverage should be True if target_lines is specified"
  else
    let fp := normpath file_path
    match alookup fp cov.file2cov with
    | none => .error "lazy TraceCollector construction from the filesystem is not modelled"
    | some tc =>
      match tc.collect_trace trace target_lines add_coverage with
      | .error e => .error e
      | .ok r => .ok (r, { file2cov := aset cov.file2cov fp r.collector })

/-! ## Laws of the coverage-update loop -/

theorem blockLinesLoop_cov_eq (tc : TraceCollector) (b : Block) (lines : List Nat)
    (st st' : CovLoopState) (h : blockLinesLoop tc b lines st = .ok st') :
    st'.cov = st.cov := by
  induction lines generalizing st with
  | nil =>
    simp only [blockLinesLoop, Except.ok.injEq] at h
    rw [← h]
  | cons rl rest ih =>
    simp only [blockLinesLoop] at h
    split at h
    · exact absurd h (by simp)
    · split at h
      · exact ih _ h
      · split at h
        · exact absurd h (by simp)
        · split at h
          · exact absurd h (by simp)
          · split at h
            · exact absurd h (by simp)
            · split at h
              · split at h
                · exact absurd h (by simp)
                · have h2 := ih _ h
                  exact h2
              · exact ih _ h

theorem covLoop_count (tc : TraceCollector) (bs : List Block)
    (hnd : bs.Nodup) (st st' : CovLoopState) (h : covLoop tc bs st = .ok st') :
    ∀ b, aget st'.cov b 0 = aget st.cov b 0 + (if b ∈ bs then 1 else 0) := by
  induction bs generalizing st with
  | nil =>
    intro b
    simp only [covLoop, Except.ok.injEq] at h
    simp [← h]
  | cons b0 rest ih =>
    intro b
    obtain ⟨hnotin, hndrest⟩ := List.nodup_cons.mp hnd
    simp only [covLoop] at h
    have hstep : ∀ st2 : CovLoopState,
        st2.cov = aset st.cov b0 (aget st.cov b0 0 + 1) →
        covLoop tc rest st2 = .ok st' →
        aget st'.cov b 0 = aget st.cov b 0 + (if b ∈ b0 :: rest then 1 else 0) := by
      intro st2 hcov2 hrec
      have := ih hndrest st2 hrec b
      rw [hcov2, aget_aset] at this
      by_cases hb : b = b0
      · subst hb
        simp only [if_pos rfl] at this
        have hbnotin : b ∉ rest := hnotin
        simp [this, hbnotin]
      · simp only [if_neg hb] at this
        by_cases hbr : b ∈ rest
        · simp [this, hbr, List.mem_cons, hb]
        · have : aget st'.cov b 0 = aget st.cov b 0 := by simp [this, hbr]
          simp [this, List.mem_cons, hb, hbr]
    split at h
    · exact hstep _ rfl h
    · split at h
      · split at h
        · exact absurd h (by simp)
        · split at h
          · exact absurd h (by simp)
          · rename_i st2 hbl
            exact hstep st2 (blockLinesLoop_cov_eq _ _ _ _ _ hbl) h
      · exact hstep _ rfl h

theorem covLoop_all_covered (tc : TraceCollector) (bs : List Block)
    (hnd : bs.Nodup)
    (st : CovLoopState) (hall : ∀ b ∈ bs, aget st.cov b 0 > 0)
    (hg : st.globalFirst = false) :
    ∃ st', covLoop tc bs st = .ok st' ∧ st'.newLines = st.newLines ∧
      st'.contents = st.contents ∧ st'.globalFirst = false ∧
      ∀ b, aget st'.cov b 0 = aget st.cov b 0 + (if b ∈ bs then 1 else 0) := by
  induction bs generalizing st with
  | nil =>
    refine ⟨st, rfl, rfl, rfl, hg, ?_⟩
    intro b; simp
  | cons b0 rest ih =>
    obtain ⟨hnotin, hndrest⟩ := List.nodup_cons.mp hnd
    have hb0 : aget st.cov b0 0 > 0 := hall b0 (by simp)
    have hprev : ¬ (aget st.cov b0 0 = 0) := by omega
    have hnext : ∀ (gf : Bool), gf = false →
        ∃ st', covLoop tc rest
            { cov := aset st.cov b0 (aget st.cov b0 0 + 1),
              newLines := st.newLines, contents := st.contents,
              globalFirst := gf } = .ok st' ∧
          st'.newLines = st.newLines ∧ st'.contents = st.contents ∧
          st'.globalFirst = false ∧
          ∀ b, aget st'.cov b 0 =
            aget (aset st.cov b0 (aget st.cov b0 0 + 1)) b 0 + (if b ∈ rest then 1 else 0) := by
      intro gf hgf
      refine ih hndrest
        { cov := aset st.cov b0 (aget st.cov b0 0 + 1),
          newLines := st.newLines, contents := st.contents,
          globalFirst := gf } ?_ hgf
      intro b hb
      rw [aget_aset]
      by_cases hbb : b = b0
      · simp [hbb]
      · simp only [if_neg hbb]
        exact hall b (by simp [hb])
    have hcomb : ∀ st' : CovLoopState, (∀ b, aget st'.cov b 0 =
          aget (aset st.cov b0 (aget st.cov b0 0 + 1)) b 0 + (if b ∈ rest then 1 else 0)) →
        ∀ b, aget st'.cov b 0 = aget st.cov b 0 + (if b ∈ b0 :: rest then 1 else 0) := by
      intro st' hst' b
      have := hst' b
      rw [aget_aset] at this
      by_cases hbb : b = b0
      · subst hbb
        simp only [if_pos rfl] at this
        simp [this, hnotin]
      · simp only [if_neg hbb] at this
        by_cases hbr : b ∈ rest <;> simp [this, hbr, List.mem_cons, hbb]
    by_cases hglob : b0 = GLOBAL_BLOCK
    · obtain ⟨st', hrec, hn, hc, hgf, hcnt⟩ := hnext (decide (aget st.cov b0 0 = 0))
        (by simp [hprev])
      refine ⟨st', ?_, hn, hc, hgf, hcomb st' hcnt⟩
      simp only [covLoop, hglob, if_pos]
      have hshape : { st with
          cov := aset st.cov GLOBAL_BLOCK (aget st.cov GLOBAL_BLOCK 0 + 1),
          globalFirst := decide (aget st.cov GLOBAL_BLOCK 0 = 0) } =
        { cov := aset st.cov b0 (aget st.cov b0 0 + 1),
          newLines := st.newLines, contents := st.contents,
          globalFirst := decide (aget st.cov b0 0 = 0) } := by
        rw [← hglob]
      rw [hshape]
      exact hrec
    · obtain ⟨st', hrec, hn, hc, hgf, hcnt⟩ := hnext st.globalFirst hg
      refine ⟨st', ?_, hn, hc, hgf, hcomb st' hcnt⟩
      simp only [covLoop, hglob, if_neg, hprev, if_false]
      have hshape : { st with cov := aset st.cov b0 (aget st.cov b0 0 + 1) } =
        { cov := aset st.cov b0 (aget st.cov b0 0 + 1),
          newLines := st.newLines, contents := st.contents,
          globalFirst := st.globalFirst } := rfl
      rw [hshape]
      exact hrec

theorem get_executed_blocks_nodup (trace_str : String) :
    (get_executed_blocks trace_str).Nodup := by
  unfold get_executed_blocks
  have haux : ∀ (lines : List String) (acc : List Block), acc.Nodup →
      (lines.foldl
        (fun acc line =>
          match findMarker (pyStrip line).data with
          | some (_, func_name, bb_id) =>
            if (func_name, bb_id) ∈ acc then acc else acc ++ [(func_name, bb_id)]
          | none => acc)
        acc).Nodup := by
    intro lines
    induction lines with
    | nil => intro acc hacc; exact hacc
    | cons l rest ih =>
      intro acc hacc
      simp only [List.foldl_cons]
      apply ih
      cases hm : findMarker (pyStrip l).data with
      | none => exact hacc
      | some g =>
        obtain ⟨a1, a2, a3⟩ := g
        simp only
        split
        · exact hacc
        · rename_i hnm
          simp [List.nodup_append, hacc, hnm]
  exact haux _ [GLOBAL_BLOCK] (by simp)

theorem target_line_covs_length (tc : TraceCollector) (ls : List Nat) (cs : List Nat)
    (h : tc.target_line_covs ls = .ok cs) : cs.length = ls.length := by
  induction ls generalizing cs with
  | nil =>
    simp only [TraceCollector.target_line_covs, Except.ok.injEq] at h
    simp [← h]
  | cons l rest ih =>
    simp only [TraceCollector.target_line_covs] at h
    split at h
    · exact absurd h (by simp)
    · split at h
      · exact absurd h (by simp)
      · split at h
        · exact absurd h (by simp)
        · rename_i cs2 hcs2
          simp only [Except.ok.injEq] at h
          subst h
          simp [ih cs2 hcs2]

/-- C10: calling `collect_trace` with `add_coverage = False` leaves the
collector (in particular every block's hit count) unchanged and returns 0
newly covered lines; and the coverage registry's `collect_trace` fails its
`assert` whenever target lines are supplied with `add_coverage = False`. -/
theorem collect_trace_no_coverage_frame :
    (∀ (tc : TraceCollector) (trace : String) (tl : Option (Nat × Nat)) (r : CollectResult),
      tc.collect_trace trace tl false = .ok r →
      r.collector = tc ∧ r.new_covered_lines = 0) ∧
    (∀ (cov : Coverage) (p tr : String) (t : Option (Nat × Nat)),
      t ≠ none →
      cov.collect_trace p tr t false =
        .error "assert: add_coverage should be True if target_lines is specified") := by
  constructor
  · intro tc trace tl r h
    simp only [TraceCollector.collect_trace] at h
    split at h
    · exact absurd h (by simp)
    · rename_i prev hprev
      rw [if_neg (by decide)] at h
      simp only at h
      split at h
      · exact absurd h (by simp)
      · split at h
        · exact absurd h (by simp)
        · simp only [Except.ok.injEq] at h
          rw [← h]
          exact ⟨rfl, rfl⟩
  · intro cov p tr t ht
    simp only [Coverage.collect_trace]
    rw [if_pos ⟨ht, by decide⟩]

/-- A concrete trace collector, as the constructor builds it for the
instrumented file `// enter main 1 \n x = 1; \n // exit main 1`. -/
def collectorW : TraceCollector :=
  { file_path := "f.c", comment_token := "//",
    line2code := [(1, "// enter main 1"), (2, "x = 1;"), (3, "// exit main 1")],
    line2blocks := [(1, [INSTRUMENT_BLOCK]), (2, [GLOBAL_BLOCK, ("main", 1)]),
      (3, [INSTRUMENT_BLOCK])],
    block2cov := [],
    block2lines := [(("main", 1), (2, 2))],
    block2real_lines := [(("main", 1), (1, 1))],
    real_line2line := [(1, 2)],
    begin_copyright_lines := 0, size := 3, instrumentation_cnt := 2 }

/-- The result of ingesting `"enter main 1"` into `collectorW` without
updating coverage. -/
def frameResultW : CollectResult :=
  { new_covered_lines := 0, is_target_lines_covered := true, collector := collectorW }

/-- Witness for C10: a concrete collector and registry exercising both
conjuncts. -/
theorem collect_trace_no_coverage_frame_witness :
    (frameResultW.collector = collectorW ∧ frameResultW.new_covered_lines = 0) ∧
    ({ file2cov := [("f.c", collectorW)] } : Coverage).collect_trace "f.c"
        "enter main 1" (some (1, 1)) false =
      .error "assert: add_coverage should be True if target_lines is specified" :=
  ⟨collect_trace_no_coverage_frame.1 collectorW "enter main 1" none frameResultW
      (by decide),
   collect_trace_no_coverage_frame.2 { file2cov := [("f.c", collectorW)] } "f.c"
      "enter main 1" (some (1, 1)) (by simp)⟩

theorem collect_trace_eval_add (tc : TraceCollector) (trace : String) (st2 : CovLoopState)
    (hrec : covLoop tc (get_executed_blocks trace)
      { cov := tc.block2cov, newLines := 0, contents := [], globalFirst := false } = .ok st2)
    (hgf : st2.globalFirst = false) :
    tc.collect_trace trace none true =
      .ok { new_covered_lines := st2.newLines, is_target_lines_covered := true,
            collector := { tc with block2cov := st2.cov } } := by
  simp only [TraceCollector.collect_trace]
  rw [if_pos trivial, hrec]
  simp only
  rw [if_neg (by simp [hgf])]

/-- C2: ingesting the same trace twice into a collector with no prior
coverage leaves every block named by the trace with hit count 2 (double the
count after one ingestion), and the second ingestion reports 0 newly covered
lines. -/
theorem collect_trace_twice_doubles (tc : TraceCollector) (trace : String)
    (r1 : CollectResult) (hcov : tc.block2cov = [])
    (h1 : tc.collect_trace trace none true = .ok r1) :
    ∃ r2, r1.collector.collect_trace trace none true = .ok r2 ∧
      r2.new_covered_lines = 0 ∧
      ∀ b ∈ get_executed_blocks trace,
        aget r1.collector.block2cov b 0 = 1 ∧ aget r2.collector.block2cov b 0 = 2 := by
  have hbs := get_executed_blocks_nodup trace
  simp only [TraceCollector.collect_trace] at h1
  rw [if_pos trivial] at h1
  split at h1
  · exact absurd h1 (by simp)
  · rename_i st hloop
    split at h1
    · exact absurd h1 (by simp)
    · rename_i hassert
      simp only [Except.ok.injEq] at h1
      rw [hcov] at hloop
      have hc1 : ∀ b, aget st.cov b 0 = (if b ∈ get_executed_blocks trace then 1 else 0) := by
        intro b
        have := covLoop_count tc _ hbs _ st hloop b
        simpa [aget, alookup] using this
      have hall : ∀ b ∈ get_executed_blocks trace, aget st.cov b 0 > 0 := by
        intro b hb
        rw [hc1 b]
        simp [hb]
      have hr1 : r1 =
          { new_covered_lines := st.newLines, is_target_lines_covered := true,
            collector := { tc with block2cov := st.cov } } := h1.symm
      subst hr1
      obtain ⟨st2, hrec, hn, hcont, hgf, hcnt⟩ :=
        covLoop_all_covered { tc with block2cov := st.cov } (get_executed_blocks trace) hbs
          { cov := st.cov, newLines := 0, contents := [], globalFirst := false }
          hall rfl
      refine ⟨{ new_covered_lines := st2.newLines, is_target_lines_covered := true,
                collector := { tc with block2cov := st2.cov } }, ?_, ?_, ?_⟩
      · exact collect_trace_eval_add { tc with block2cov := st.cov } trace st2 hrec hgf
      · exact hn
      · intro b hb
        constructor
        · show aget st.cov b 0 = 1
          rw [hc1 b]
          simp [hb]
        · show aget st2.cov b 0 = 2
          have h2 := hcnt b
          have h3 : aget st.cov b 0 = 1 := by
            rw [hc1 b]
            simp [hb]
          rw [h2]
          show aget st.cov b 0 + (if b ∈ get_executed_blocks trace then 1 else 0) = 2
          rw [h3]
          simp [hb]

/-- Witness data for C2: the result of the first ingestion of
`"enter main 1"` into `collectorW`. -/
def firstIngestW : CollectResult :=
  { new_covered_lines := 1, is_target_lines_covered := true,
    collector := { collectorW with block2cov := [(GLOBAL_BLOCK, 1), (("main", 1), 1)] } }

/-- Witness for C2 at a concrete collector and trace. -/
theorem collect_trace_twice_doubles_witness :
    ∃ r2, firstIngestW.collector.collect_trace "enter main 1" none true = .ok r2 ∧
      r2.new_covered_lines = 0 ∧
      ∀ b ∈ get_executed_blocks "enter main 1",
        aget firstIngestW.collector.block2cov b 0 = 1 ∧
        aget r2.collector.block2cov b 0 = 2 :=
  collect_trace_twice_doubles collectorW "enter main 1" firstIngestW rfl (by decide)

/-- C8: whenever `collect_trace` is called with target lines `(s, e)` and
returns, the returned covered flag is true iff some line in `[s, e]` has a
strictly greater hit count after the ingestion than before it. -/
theorem collect_trace_target_covered_iff (tc : TraceCollector) (trace : String)
    (s e : Nat) (add : Bool) (r : CollectResult)
    (h : tc.collect_trace trace (some (s, e)) add = .ok r) :
    ∃ prev post, tc.target_line_covs (pyRangeIncl s e) = .ok prev ∧
      r.collector.target_line_covs (pyRangeIncl s e) = .ok post ∧
      post.length = prev.length ∧
      (r.is_target_lines_covered = true ↔
        ∃ i, ∃ (h1 : i < prev.length) (h2 : i < post.length),
          prev.get ⟨i, h1⟩ < post.get ⟨i, h2⟩) := by
  simp only [TraceCollector.collect_trace] at h
  split at h
  · exact absurd h (by simp)
  · rename_i prev hprev
    split at h
    · exact absurd h (by simp)
    · rename_i st hloop
      split at h
      · exact absurd h (by simp)
      · rename_i hassert
        split at h
        · exact absurd h (by simp)
        · rename_i post hpost
          simp only [Except.ok.injEq] at h
          refine ⟨prev, post, hprev, ?_, ?_, ?_⟩
          · rw [← h]
            exact hpost
          · rw [target_line_covs_length _ _ _ hprev, target_line_covs_length _ _ _ hpost]
          · rw [← h]
            simp only [decide_eq_true_eq]
            rw [gt_iff_lt, List.countP_pos_iff]
            constructor
            · rintro ⟨q, hq, hgt⟩
              obtain ⟨⟨i, hilen⟩, hget⟩ := List.mem_iff_get.mp hq
              have hi1 : i < post.length := by
                have := @List.length_zip _ _ post prev
                omega
              have hi2 : i < prev.length := by
                have := @List.length_zip _ _ post prev
                omega
              refine ⟨i, hi2, hi1, ?_⟩
              have hzip := @List.get_zip _ _ post prev ⟨i, hilen⟩
              rw [hzip] at hget
              rw [← hget] at hgt
              simpa using hgt
            · rintro ⟨i, hi1, hi2, hlt⟩
              have hilen : i < (post.zip prev).length := by
                rw [List.length_zip]
                omega
              refine ⟨(post.zip prev).get ⟨i, hilen⟩, List.get_mem _ _ _, ?_⟩
              have hzip := @List.get_zip _ _ post prev ⟨i, hilen⟩
              rw [hzip]
              simpa using hlt

/-- Witness data for C8: ingesting `"enter main 1"` into `collectorW` with
target lines `(1, 1)`. -/
def targetIngestW : CollectResult :=
  { new_covered_lines := 1, is_target_lines_covered := true,
    collector := { collectorW with block2cov := [(GLOBAL_BLOCK, 1), (("main", 1), 1)] } }

/-- Witness for C8 at a concrete collector, trace and target range. -/
theorem collect_trace_target_covered_iff_witness :
    ∃ prev post, collectorW.target_line_covs (pyRangeIncl 1 1) = .ok prev ∧
      targetIngestW.collector.target_line_covs (pyRangeIncl 1 1) = .ok post ∧
      post.length = prev.length ∧
      (targetIngestW.is_target_lines_covered = true ↔
        ∃ i, ∃ (h1 : i < prev.length) (h2 : i < post.length),
          prev.get ⟨i, h1⟩ < post.get ⟨i, h2⟩) :=
  collect_trace_target_covered_iff collectorW "enter main 1" 1 1 true targetIngestW
    (by decide)

/-! ## SMT solver tool (app/agents/tools/smt_solver.py) -/

/-- Python `hay.rfind(sub)`: the greatest index where `sub` occurs, `-1` if
absent. -/
def rfindSub (hay sub : List Char) : Int :=
  match ((List.range (hay.length + 1)).filter (fun i => sub.isPrefixOf (hay.drop i))).getLast? with
  | some i => (i : Int)
  | none => -1

/-- Python `s.find(c)` for a single character, `-1` if absent. -/
def findChar (s : String) (c : Char) : Int :=
  match s.data.findIdx? (fun x => x = c) with
  | some i => (i : Int)
  | none => -1

/-- Removal of markdown code-block markers (smt_solver.py:107-122): strip,
drop the first line after a leading triple backtick, cut at the last triple
backtick when its index is positive, strip again. -/
def stripCodeMarkers (s : String) : String :=
  let s1 := pyStrip s
  let s2 :=
    if pyStartsWith s1 "```" then
      let firstLineEnd := findChar s1 '\n'
      let s1b :=
        if firstLineEnd > 0 then String.mk (s1.data.drop (firstLineEnd.toNat + 1)) else s1
      let endMarker := rfindSub s1b.data "```".data
      if endMarker > 0 then String.mk (s1b.data.take endMarker.toNat) else s1b
    else s1
  pyStrip s2

/-- The line prefixes that mark the direct-expression dialect
(smt_solver.py:138-158). -/
def fmt1Prefixes : List String :=
  ["z3.", "(", ")", ",", "&&", "||", "and ", "or ", "+", "-", "*", "/", "==",
    "!=", "<", ">"]

/-- FORMAT 1 detection (smt_solver.py:128-159): every non-empty non-comment
line starts with one of the expression-continuation prefixes. -/
def is_format1 (smt : String) : Bool :=
  let lines := pySplitLines smt
  let non_empty_lines :=
    (lines.filter (fun l => pyStrip l ≠ "" ∧ ¬ pyStartsWith (pyStrip l) "#")).map pyStrip
  non_empty_lines ≠ [] ∧
    non_empty_lines.all (fun l => fmt1Prefixes.any (fun p => pyStartsWith l p))

/-- Import stripping of the code-block dialect (smt_solver.py:167-173): drop
every line whose stripped form starts with `import` or `from`. -/
def stripImportLines (lines : List String) : List String :=
  lines.filter (fun line =>
    ¬ (pyStartsWith (pyStrip line) "import" ∨ pyStartsWith (pyStrip line) "from"))

/-- Python `min()` over a list of naturals (0 on the empty list, on which the
engine never calls it). -/
def pyMinList : List Nat → Nat
  | [] => 0
  | h :: t => t.foldl Nat.min h

/-- Indentation fixing of the code-block dialect (smt_solver.py:176-212). -/
def fix_indentation (code_lines : List String) : List String :=
  if code_lines = [] then code_lines
  else
    let non_empty_lines :=
      code_lines.filter (fun l => pyStrip l ≠ "" ∧ ¬ pyStartsWith (pyStrip l) "#")
    if non_empty_lines = [] then code_lines
    else
      let leading_spaces := non_empty_lines.map leadingSpaceCount
      let min_indent :=
        if leading_spaces.any (fun s => s > 0) then
          pyMinList (leading_spaces.filter (fun s => s > 0))
        else 0
      if min_indent > 0 then
        code_lines.map (fun line =>
          if pyStrip line ≠ "" then
            if leadingSpaceCount line ≥ min_indent then String.mk (line.data.drop min_indent)
            else line
          else line)
      else code_lines

/-- The classified input of `process_smt_solver` after marker stripping and
dialect detection (smt_solver.py:92-215). -/
inductive SmtInput where
  | emptyErr
  | format1 (expr : String)
  | format2 (code : String)
deriving DecidableEq, Repr

/-- Input classification and preprocessing of `process_smt_solver`: empty
check, code-block marker stripping, dialect detection, and — for the
code-block dialect — import stripping, indentation fixing and joining. -/
def classify_smt_input (smt_constraints : Option String) : SmtInput :=
  match smt_constraints with
  | none => .emptyErr
  | some s =>
    if pyStrip s = "" then .emptyErr
    else
      let s2 := stripCodeMarkers s
      let lines := pySplitLines s2
      if is_format1 s2 then .format1 s2
      else .format2 (strJoin "\n" (fix_indentation (stripImportLines lines)))

/-- A value bound by the evaluated code block: either a Z3 boolean expression
(`z3.BoolRef`) or anything else. -/
inductive PyValue where
  | boolRef (descr : String)
  | nonBool (descr : String)
deriving DecidableEq, Repr

/-- Outcome of `exec`ing the code block (the Python evaluator itself is
external to the model): an exception, or the resulting local environment. -/
inductive PyExecOutcome where
  | raises (msg : String)
  | binds (localVars : List (String × PyValue))
deriving DecidableEq, Repr

/-- The post-`exec` validation of the code-block dialect
(smt_solver.py:221-234): the error message produced for an exec outcome,
`none` when a Z3 boolean `final_constraint` was bound. -/
def format2_check (outcome : PyExecOutcome) : Option String :=
  match outcome with
  | .raises e => some ("Error executing provided code block: " ++ e)
  | .binds vars =>
    match alookup "final_constraint" vars with
    | none => some "Missing required 'final_constraint' variable in code block. You must assign your final constraint to 'final_constraint'."
    | some v =>
      match v with
      | .boolRef _ => none
      | .nonBool _ => some "The 'final_constraint' variable must be a Z3 boolean expression."

/-- A value assigned by a Z3 model, after the kind dispatch of
smt_solver.py:250-266 (`algebraic` carries the printed form of
`float(value.approx(10))`, `other` the `str()` of the value). -/
inductive Z3Value where
  | intVal (n : Int)
  | algebraicVal (approx : String)
  | trueVal
  | falseVal
  | otherVal (s : String)
deriving DecidableEq, Repr

/-- Python `f"{value}"` for a converted model value. -/
def z3ValueStr : Z3Value → String
  | .intVal n => pyIntToStr n
  | .algebraicVal s => s
  | .trueVal => "True"
  | .falseVal => "False"
  | .otherVal s => s

/-- Result of `solver.check()`. -/
inductive Z3CheckResult where
  | sat (model : List (String × Z3Value))
  | unsat
  | unknown (reason : String)
deriving DecidableEq, Repr

/-- Insertion into a sorted list of strings (ascending). -/
def insertSorted (x : String) : List String → List String
  | [] => [x]
  | y :: t => if x ≤ y then x :: y :: t else y :: insertSorted x t

/-- Ascending sort of strings; agrees with Python `sorted` on the
duplicate-free key lists it is applied to. -/
def sortStrings (l : List String) : List String := l.foldr insertSorted []

/-- The `variables` dict built from the model declarations
(smt_solver.py:249-266). -/
def buildVars (model : List (String × Z3Value)) : List (String × Z3Value) :=
  model.foldl (fun acc p => aset acc p.1 p.2) []

/-- SAT/UNSAT/UNKNOWN observation construction of `process_smt_solver`
(smt_solver.py:241-296), including the final
`if result_str: ... else: (err_msg, False)` merge. -/
def process_check_result (result : Z3CheckResult) : String × Bool :=
  match result with
  | .sat model =>
    let varsDict := buildVars model
    let sortedNames := sortStrings (varsDict.map Prod.fst)
    let solution := sortedNames.map (fun v => v ++ " = " ++ z3ValueStr (aget varsDict v (.otherVal "")))
    let result_str := strJoin "\n" solution
    if result_str ≠ "" then (result_str, true) else ("", false)
  | .unsat => ("Constraints unsatisfiable.", false)
  | .unknown reason =>
    if strContains (pyLower reason) "timeout" ∨ strContains (pyLower reason) "canceled" then
      ("Solver timeout (10 seconds).", false)
    else ("Solver could not determine result. Reason: " ++ reason, false)

/-! ## Final solution tool (app/agents/tools/provide_solution.py) -/

/-- Modelled from the spec: the result record of `run_target`
(app/utils/utils.py, absent from src/), the external smoke runner; per spec
§4.3 the candidate "must survive a 2-second smoke run without throwing". -/
structure RunTargetResult where
  exec_success : Bool
  exec_error : String

/-- `process_solution` (provide_solution.py:51-100), parameterized by the
external `run_target` smoke runner; returns
`(observation, is_satisfiable, recorded program)`. -/
def process_solution (run_target : String → Nat → RunTargetResult)
    (is_satisfiable : Option Bool) (python_execution : Option String) :
    String × Bool × Option String :=
  match is_satisfiable with
  | none =>
    ("Error: `is_satisfiable` is not a boolean. Please provide a valid `is_satisfiable`.",
      true, none)
  | some false => ("UNSATISFIABLE constraints acknowledged.", false, none)
  | some true =>
    match python_execution with
    | none =>
      ("Error: Python execution function is required when constraints are satisfiable.",
        true, none)
    | some p =>
      if p = "" then
        ("Error: Python execution function is required when constraints are satisfiable.",
          true, none)
      else if ¬ strContains p "def execute_program" then
        ("Error: Python execution must contain a 'def execute_program(timeout: int) -> tuple[str, int]' function.",
          true, none)
      else
        let result := run_target p 2
        if ¬ result.exec_success then
          ("Running the given solution failed, error: " ++ result.exec_error, true, none)
        else ("Solution accepted.", true, some p)

/-! ## Sorting and joining lemmas for the SMT observations -/

theorem mem_insertSorted (x y : String) (l : List String) :
    y ∈ insertSorted x l ↔ y = x ∨ y ∈ l := by
  induction l with
  | nil => simp [insertSorted]
  | cons a t ih =>
    simp only [insertSorted]
    split
    · simp [List.mem_cons]
    · simp only [List.mem_cons, ih]
      tauto

theorem insertSorted_pairwise (x : String) (l : List String)
    (h : l.Pairwise (· ≤ ·)) : (insertSorted x l).Pairwise (· ≤ ·) := by
  induction l with
  | nil => simp [insertSorted]
  | cons a t ih =>
    obtain ⟨ha, ht⟩ := List.pairwise_cons.mp h
    simp only [insertSorted]
    split
    · rename_i hxa
      refine List.Pairwise.cons ?_ h
      intro z hz
      rcases List.mem_cons.mp hz with rfl | hz2
      · exact hxa
      · exact le_trans hxa (ha z hz2)
    · rename_i hxa
      have hax : a ≤ x := le_of_not_le hxa
      refine List.Pairwise.cons ?_ (ih ht)
      intro z hz
      rcases (mem_insertSorted x z t).mp hz with rfl | hz2
      · exact hax
      · exact ha z hz2

theorem sortStrings_pairwise (l : List String) : (sortStrings l).Pairwise (· ≤ ·) := by
  induction l with
  | nil => simp [sortStrings]
  | cons a t ih => exact insertSorted_pairwise a _ ih

theorem mem_sortStrings (l : List String) (y : String) : y ∈ sortStrings l ↔ y ∈ l := by
  induction l with
  | nil => simp [sortStrings]
  | cons a t ih =>
    show y ∈ insertSorted a (sortStrings t) ↔ _
    rw [mem_insertSorted]
    simp [ih]

theorem insertSorted_ne_nil (x : String) (l : List String) : insertSorted x l ≠ [] := by
  cases l with
  | nil => simp [insertSorted]
  | cons a t =>
    simp only [insertSorted]
    split <;> simp

theorem sortStrings_ne_nil {l : List String} (h : l ≠ []) : sortStrings l ≠ [] := by
  cases l with
  | nil => exact absurd rfl h
  | cons a t => exact insertSorted_ne_nil a _

theorem aset_ne_nil {α β : Type} [DecidableEq α] (m : List (α × β)) (k : α) (v : β) :
    aset m k v ≠ [] := by
  cases m with
  | nil => simp [aset]
  | cons p t =>
    obtain ⟨a, b⟩ := p
    simp only [aset]
    split <;> simp

theorem buildVars_ne_nil {model : List (String × Z3Value)} (h : model ≠ []) :
    buildVars model ≠ [] := by
  have haux : ∀ (l : List (String × Z3Value)) (acc : List (String × Z3Value)),
      acc ≠ [] → l.foldl (fun acc p => aset acc p.1 p.2) acc ≠ [] := by
    intro l
    induction l with
    | nil => intro acc hacc; exact hacc
    | cons p t ih =>
      intro acc _
      simp only [List.foldl_cons]
      exact ih _ (aset_ne_nil acc p.1 p.2)
  cases model with
  | nil => exact absurd rfl h
  | cons p t =>
    show t.foldl (fun acc p => aset acc p.1 p.2) (aset [] p.1 p.2) ≠ []
    exact haux t _ (aset_ne_nil [] p.1 p.2)

theorem mem_keys_aset {β : Type} (m : List (String × β)) (k : String) (v : β) (n : String) :
    n ∈ (aset m k v).map Prod.fst ↔ n = k ∨ n ∈ m.map Prod.fst := by
  induction m with
  | nil => simp [aset]
  | cons p t ih =>
    obtain ⟨a, b⟩ := p
    simp only [aset]
    split
    · rename_i hak
      subst hak
      simp [List.map_cons, List.mem_cons]
    · simp only [List.map_cons, List.mem_cons, ih]
      tauto

theorem mem_keys_buildVars (model : List (String × Z3Value)) (n : String) :
    n ∈ (buildVars model).map Prod.fst ↔ n ∈ model.map Prod.fst := by
  have haux : ∀ (l : List (String × Z3Value)) (acc : List (String × Z3Value)),
      n ∈ ((l.foldl (fun acc p => aset acc p.1 p.2) acc).map Prod.fst) ↔
        n ∈ acc.map Prod.fst ∨ n ∈ l.map Prod.fst := by
    intro l
    induction l with
    | nil => intro acc; simp
    | cons p t ih =>
      intro acc
      simp only [List.foldl_cons]
      rw [ih (aset acc p.1 p.2), mem_keys_aset]
      simp only [List.map_cons, List.mem_cons]
      tauto
  have := haux model []
  simpa [buildVars] using this

theorem strJoin_length_ge (sep : String) (x : String) (t : List String) :
    x.length ≤ (strJoin sep (x :: t)).length := by
  show x.length ≤ (t.foldl (fun acc y => acc ++ sep ++ y) x).length
  induction t generalizing x with
  | nil => simp
  | cons y t2 ih =>
    simp only [List.foldl_cons]
    refine le_trans ?_ (ih (x ++ sep ++ y))
    rw [String.length_append, String.length_append]
    omega

theorem ne_empty_of_length_pos {s : String} (h : 0 < s.length) : s ≠ "" := by
  intro he
  rw [he] at h
  simp at h

theorem containsSub_suffix (a b : List Char) : containsSub (a ++ b) b = true := by
  induction a with
  | nil =>
    cases b with
    | nil => simp [containsSub]
    | cons c t =>
      simp only [List.nil_append, containsSub, Bool.or_eq_true]
      exact Or.inl (by simp [List.isPrefixOf_iff_prefix])
  | cons c t ih =>
    simp [containsSub, ih]

/-- C6 counterexample: a satisfiable check whose model assigns no variables
(e.g. the constraint `z3.IntVal(1) > 0`) makes `process_smt_solver` return an
empty observation with success flag `False`, not a listing with success
`True`. -/
theorem smt_sat_empty_model_counterexample :
    process_check_result (.sat []) = ("", false) := by decide

/-- C6 (amended): on SAT with a model assigning at least one variable the
observation lists `var = value` lines sorted by variable name with success
flag true (a SAT result with an empty model yields `("", False)`); on UNSAT
the observation is exactly `Constraints unsatisfiable.`; on UNKNOWN the
observation names the 10-second limit when the lowered reason mentions
timeout/cancellation and otherwise embeds the solver's reason. -/
theorem smt_check_observations :
    (∀ model : List (String × Z3Value), model ≠ [] →
      ∃ names : List String, names ≠ [] ∧ names.Pairwise (· ≤ ·) ∧
        (∀ n, n ∈ names ↔ n ∈ model.map Prod.fst) ∧
        process_check_result (.sat model) =
          (strJoin "\n" (names.map (fun v =>
            v ++ " = " ++ z3ValueStr (aget (buildVars model) v (.otherVal "")))), true)) ∧
    process_check_result .unsat = ("Constraints unsatisfiable.", false) ∧
    (∀ reason,
      (strContains (pyLower reason) "timeout" = true ∨
        strContains (pyLower reason) "canceled" = true) →
      process_check_result (.unknown reason) = ("Solver timeout (10 seconds).", false)) ∧
    (∀ reason,
      ¬ (strContains (pyLower reason) "timeout" = true ∨
        strContains (pyLower reason) "canceled" = true) →
      process_check_result (.unknown reason) =
        ("Solver could not determine result. Reason: " ++ reason, false) ∧
      strContains ("Solver could not determine result. Reason: " ++ reason) reason = true) := by
  refine ⟨?_, rfl, ?_, ?_⟩
  · intro model hm
    refine ⟨sortStrings ((buildVars model).map Prod.fst), ?_, sortStrings_pairwise _, ?_, ?_⟩
    · exact sortStrings_ne_nil (by simp [buildVars_ne_nil hm])
    · intro n
      rw [mem_sortStrings, mem_keys_buildVars]
    · simp only [process_check_result]
      rw [if_pos]
      cases hnames : sortStrings ((buildVars model).map Prod.fst) with
      | nil => exact absurd hnames (sortStrings_ne_nil (by simp [buildVars_ne_nil hm]))
      | cons n rest =>
        have hlen : 0 < (strJoin "\n"
            ((n :: rest).map (fun v =>
              v ++ " = " ++ z3ValueStr (aget (buildVars model) v (.otherVal ""))))).length := by
          refine lt_of_lt_of_le ?_ (strJoin_length_ge "\n" _ _)
          rw [String.length_append, String.length_append]
          have : (" = ").length = 3 := by decide
          omega
        exact ne_empty_of_length_pos hlen
  · intro reason hr
    simp only [process_check_result]
    rw [if_pos hr]
  · intro reason hr
    simp only [process_check_result]
    rw [if_neg hr]
    refine ⟨rfl, ?_⟩
    show containsSub ("Solver could not determine result. Reason: " ++ reason).data
      reason.data = true
    rw [String.data_append]
    exact containsSub_suffix _ _

/-- Witness for C6 at a concrete model and concrete unknown reasons. -/
theorem smt_check_observations_witness :
    (∃ names : List String, names ≠ [] ∧ names.Pairwise (· ≤ ·) ∧
      (∀ n, n ∈ names ↔ n ∈ [("x", Z3Value.intVal 7)].map Prod.fst) ∧
      process_check_result (.sat [("x", .intVal 7)]) =
        (strJoin "\n" (names.map (fun v =>
          v ++ " = " ++ z3ValueStr (aget (buildVars [("x", .intVal 7)]) v (.otherVal "")))),
          true)) ∧
    process_check_result (.unknown "canceled by deadline") =
      ("Solver timeout (10 seconds).", false) ∧
    (process_check_result (.unknown "memout") =
      ("Solver could not determine result. Reason: " ++ "memout", false) ∧
      strContains ("Solver could not determine result. Reason: " ++ "memout") "memout" = true) :=
  ⟨smt_check_observations.1 [("x", .intVal 7)] (by simp),
   smt_check_observations.2.2.1 "canceled by deadline" (Or.inr (by decide)),
   smt_check_observations.2.2.2 "memout" (by decide)⟩

/-! ## The indentation-normalization claim (C5) -/

/-- The indentation normalization as the claim words it: remove the common
leading-space prefix of the non-blank lines. -/
def normalize_indent_claim (lines : List String) : List String :=
  let nonBlank := lines.filter (fun l => pyStrip l ≠ "")
  let common := pyMinList (nonBlank.map leadingSpaceCount)
  lines.map (fun l => if pyStrip l ≠ "" then String.mk (l.data.drop common) else l)

/-- C5 counterexample: on the code block `x = 1\n    final_constraint = x`
the handler removes four leading spaces from the indented line even though
the common leading-space prefix of the non-blank lines is empty, so the
evaluated block differs from the claim's description. -/
theorem smt_indent_normalization_counterexample :
    fix_indentation ["x = 1", "    final_constraint = x"] =
      ["x = 1", "final_constraint = x"] ∧
    normalize_indent_claim ["x = 1", "    final_constraint = x"] =
      ["x = 1", "    final_constraint = x"] ∧
    fix_indentation ["x = 1", "    final_constraint = x"] ≠
      normalize_indent_claim ["x = 1", "    final_constraint = x"] := by
  refine ⟨by decide, by decide, by decide⟩

/-- The indentation normalization as amended: let `m` be the minimum positive
leading-whitespace count among non-blank, non-comment lines (0 when there is
no such positive count); every non-blank line with at least `m` leading
whitespace characters loses its first `m` characters, all other lines are
unchanged. -/
def normalize_indent_amended (lines : List String) : List String :=
  let relevant := lines.filter (fun l => pyStrip l ≠ "" ∧ ¬ pyStartsWith (pyStrip l) "#")
  let positives := (relevant.map leadingSpaceCount).filter (fun n => n > 0)
  let m := pyMinList positives
  if m = 0 then lines
  else lines.map (fun l =>
    if pyStrip l ≠ "" ∧ leadingSpaceCount l ≥ m then String.mk (l.data.drop m) else l)

theorem pyMinList_pos {l : List Nat} (h : ∀ n ∈ l, 0 < n) (hne : l ≠ []) :
    0 < pyMinList l := by
  cases l with
  | nil => exact absurd rfl hne
  | cons a t =>
    show 0 < t.foldl Nat.min a
    have haux : ∀ (t2 : List Nat) (x : Nat), 0 < x → (∀ n ∈ t2, 0 < n) →
        0 < t2.foldl Nat.min x := by
      intro t2
      induction t2 with
      | nil => intro x hx _; exact hx
      | cons y ys ih =>
        intro x hx hy
        simp only [List.foldl_cons]
        exact ih _ (lt_min hx (hy y (by simp))) (fun n hn => hy n (by simp [hn]))
    exact haux t a (h a (by simp)) (fun n hn => h n (by simp [hn]))

/-- C5 (amended): the code-block handler drops every line whose stripped form
starts with `import` or `from` (keeping the rest in order), normalizes
indentation by the minimum positive indent rule of
`normalize_indent_amended`, and accepts the evaluated block only when it
binds `final_constraint` to a Z3 boolean expression. -/
theorem smt_code_block_preprocessing :
    (∀ lines : List String,
      (stripImportLines lines).Sublist lines ∧
      (∀ l ∈ stripImportLines lines,
        pyStartsWith (pyStrip l) "import" = false ∧ pyStartsWith (pyStrip l) "from" = false) ∧
      (∀ l ∈ lines,
        (pyStartsWith (pyStrip l) "import" = true ∨ pyStartsWith (pyStrip l) "from" = true) →
        l ∉ stripImportLines lines)) ∧
    (∀ lines, fix_indentation lines = normalize_indent_amended lines) ∧
    (∀ outcome, format2_check outcome = none ↔
      ∃ vars, outcome = .binds vars ∧
        ∃ d, alookup "final_constraint" vars = some (.boolRef d)) := by
  refine ⟨?_, ?_, ?_⟩
  · intro lines
    refine ⟨List.filter_sublist _, ?_, ?_⟩
    · intro l hl
      have := (List.mem_filter.mp hl).2
      simp only [decide_eq_true_eq] at this
      push_neg at this
      exact ⟨by simp [this.1], by simp [this.2]⟩
    · intro l _ himp hmem
      have := (List.mem_filter.mp hmem).2
      simp only [decide_eq_true_eq] at this
      push_neg at this
      rcases himp with h1 | h1
      · exact absurd h1 (by simp [this.1])
      · exact absurd h1 (by simp [this.2])
  · intro lines
    by_cases hnil : lines = []
    · subst hnil
      decide
    · simp only [fix_indentation, normalize_indent_amended, if_neg hnil]
      by_cases hrel : lines.filter (fun l => pyStrip l ≠ "" ∧ ¬ pyStartsWith (pyStrip l) "#") = []
      · simp only [hrel, if_pos rfl]
        simp [pyMinList]
      · rw [if_neg hrel]
        by_cases hany : (lines.filter
            (fun l => pyStrip l ≠ "" ∧ ¬ pyStartsWith (pyStrip l) "#")).map leadingSpaceCount
            |>.any (fun s => s > 0)
        · rw [if_pos hany]
          have hposmem : ∀ n ∈ ((lines.filter
              (fun l => pyStrip l ≠ "" ∧ ¬ pyStartsWith (pyStrip l) "#")).map
                leadingSpaceCount).filter (fun n => n > 0), 0 < n := by
            intro n hn
            have := (List.mem_filter.mp hn).2
            simpa using this
          have hposne : ((lines.filter
              (fun l => pyStrip l ≠ "" ∧ ¬ pyStartsWith (pyStrip l) "#")).map
                leadingSpaceCount).filter (fun n => n > 0) ≠ [] := by
            simp only [List.any_eq_true] at hany
            obtain ⟨x, hx, hgt⟩ := hany
            intro hemp
            have : x ∈ ((lines.filter
                (fun l => pyStrip l ≠ "" ∧ ¬ pyStartsWith (pyStrip l) "#")).map
                  leadingSpaceCount).filter (fun n => n > 0) :=
              List.mem_filter.mpr ⟨hx, hgt⟩
            rw [hemp] at this
            exact absurd this (by simp)
          have hmpos := pyMinList_pos hposmem hposne
          rw [if_pos hmpos, if_neg (by omega)]
          refine List.map_congr_left ?_
          intro l _
          by_cases hs : pyStrip l = ""
          · simp [hs]
          · by_cases hc : leadingSpaceCount l ≥ pyMinList (((lines.filter
                (fun l => pyStrip l ≠ "" ∧ ¬ pyStartsWith (pyStrip l) "#")).map
                  leadingSpaceCount).filter (fun n => n > 0))
            · simp [hs, hc]
            · simp [hs, hc]
        · rw [if_neg hany]
          have hpos : ((lines.filter
              (fun l => pyStrip l ≠ "" ∧ ¬ pyStartsWith (pyStrip l) "#")).map
                leadingSpaceCount).filter (fun n => n > 0) = [] := by
            rw [List.filter_eq_nil_iff]
            intro n hn
            simp only [List.any_eq_true, not_exists] at hany
            simp only [decide_eq_true_eq]
            intro hgt
            exact hany n ⟨hn, by simpa using hgt⟩
          rw [hpos]
          simp [pyMinList]
  · intro outcome
    cases outcome with
    | raises e => simp [format2_check]
    | binds vars =>
      simp only [format2_check]
      cases hlk : alookup "final_constraint" vars with
      | none => simp [hlk]
      | some v =>
        cases v with
        | boolRef d =>
          simp only [Option.some.injEq]
          constructor
          · intro _
            exact ⟨vars, rfl, d, hlk⟩
          · intro _
            trivial
        | nonBool d =>
          constructor
          · intro h
            exact absurd h (by simp)
          · rintro ⟨vars2, heq, d2, hlk2⟩
            cases heq
            rw [hlk] at hlk2
            exact absurd hlk2 (by simp)

/-- Witness for C5 at a concrete code block and exec outcome. -/
theorem smt_code_block_preprocessing_witness :
    ((stripImportLines ["import z3", "  x = 1"]).Sublist ["import z3", "  x = 1"] ∧
      (∀ l ∈ stripImportLines ["import z3", "  x = 1"],
        pyStartsWith (pyStrip l) "import" = false ∧ pyStartsWith (pyStrip l) "from" = false) ∧
      (∀ l ∈ ["import z3", "  x = 1"],
        (pyStartsWith (pyStrip l) "import" = true ∨ pyStartsWith (pyStrip l) "from" = true) →
        l ∉ stripImportLines ["import z3", "  x = 1"])) ∧
    fix_indentation ["  x = 1"] = normalize_indent_amended ["  x = 1"] ∧
    (format2_check (.binds [("final_constraint", .boolRef "x > 0")]) = none ↔
      ∃ vars, PyExecOutcome.binds [("final_constraint", PyValue.boolRef "x > 0")] = .binds vars ∧
        ∃ d, alookup "final_constraint" vars = some (.boolRef d)) :=
  ⟨smt_code_block_preprocessing.1 ["import z3", "  x = 1"],
   smt_code_block_preprocessing.2.1 ["  x = 1"],
   smt_code_block_preprocessing.2.2 (.binds [("final_constraint", .boolRef "x > 0")])⟩

/-! ## C7 -/

theorem run_fail_msg_ne (e : String) :
    ("Running the given solution failed, error: " ++ e) ≠ "Solution accepted." := by
  intro h
  have hl := congrArg String.length h
  rw [String.length_append] at hl
  have h1 : ("Running the given solution failed, error: ").length = 42 := by decide
  have h2 : ("Solution accepted.").length = 18 := by decide
  omega

/-- C7: `process_solution` accepts (observation `Solution accepted.` with the
program recorded) iff `is_satisfiable` is the boolean `True`, the candidate
contains `def execute_program`, and the 2-second smoke run succeeds; a
`False` verdict yields the UNSATISFIABLE acknowledgement with no program; and
no rejection records a program. -/
theorem solution_accept_iff (rt : String → Nat → RunTargetResult) (sat : Option Bool)
    (pexec : Option String) :
    ((process_solution rt sat pexec).1 = "Solution accepted." ↔
      sat = some true ∧ ∃ p, pexec = some p ∧ strContains p "def execute_program" = true ∧
        (rt p 2).exec_success = true) ∧
    ((process_solution rt sat pexec).1 = "Solution accepted." →
      (process_solution rt sat pexec).2.2 = pexec) ∧
    (sat = some false →
      process_solution rt sat pexec = ("UNSATISFIABLE constraints acknowledged.", false, none)) ∧
    ((process_solution rt sat pexec).1 ≠ "Solution accepted." →
      (process_solution rt sat pexec).2.2 = none) := by
  rcases sat with _ | b
  · refine ⟨?_, ?_, ?_, ?_⟩ <;> simp [process_solution]
  · cases b
    · refine ⟨?_, ?_, ?_, ?_⟩ <;> simp [process_solution]
    · rcases pexec with _ | p
      · refine ⟨?_, ?_, ?_, ?_⟩ <;> simp [process_solution]
      · by_cases hp : p = ""
        · subst hp
          have heval : process_solution rt (some true) (some "") =
              ("Error: Python execution function is required when constraints are satisfiable.",
                true, none) := by
            simp [process_solution]
          rw [heval]
          refine ⟨?_, ?_, ?_, ?_⟩
          · constructor
            · intro h; exact absurd h (by decide)
            · rintro ⟨_, q, hq, hcq, _⟩
              rw [Option.some.injEq] at hq
              subst hq
              exact absurd hcq (by decide)
          · intro h; exact absurd h (by decide)
          · intro hs; exact absurd hs (by simp)
          · intro _; rfl
        · by_cases hc : strContains p "def execute_program" = true
          · by_cases hr : (rt p 2).exec_success = true
            · have heval : process_solution rt (some true) (some p) =
                  ("Solution accepted.", true, some p) := by
                simp only [process_solution, if_neg hp]
                rw [if_neg (by simp [hc]), if_neg (by simp [hr])]
              rw [heval]
              refine ⟨?_, ?_, ?_, ?_⟩
              · constructor
                · intro _; exact ⟨rfl, p, rfl, hc, hr⟩
                · intro _; rfl
              · intro _; rfl
              · intro hs; exact absurd hs (by simp)
              · intro hne; exact absurd rfl hne
            · have heval : process_solution rt (some true) (some p) =
                  ("Running the given solution failed, error: " ++ (rt p 2).exec_error,
                    true, none) := by
                simp only [process_solution, if_neg hp]
                rw [if_neg (by simp [hc]), if_pos (by simp [hr])]
              rw [heval]
              refine ⟨?_, ?_, ?_, ?_⟩
              · constructor
                · intro h; exact absurd h (run_fail_msg_ne _)
                · rintro ⟨_, q, hq, _, hsucc⟩
                  rw [Option.some.injEq] at hq
                  subst hq
                  exact absurd hsucc hr
              · intro h; exact absurd h (run_fail_msg_ne _)
              · intro hs; exact absurd hs (by simp)
              · intro _; rfl
          · have heval : process_solution rt (some true) (some p) =
                ("Error: Python execution must contain a 'def execute_program(timeout: int) -> tuple[str, int]' function.",
                  true, none) := by
              simp only [process_solution, if_neg hp]
              rw [if_pos (by simp [hc])]
            rw [heval]
            refine ⟨?_, ?_, ?_, ?_⟩
            · constructor
              · intro h; exact absurd h (by decide)
              · rintro ⟨_, q, hq, hcq, _⟩
                rw [Option.some.injEq] at hq
                subst hq
                exact absurd hcq hc
            · intro h; exact absurd h (by decide)
            · intro hs; exact absurd hs (by simp)
            · intro _; rfl

/-- A concrete always-succeeding smoke runner, for witnesses. -/
def runnerW : String → Nat → RunTargetResult :=
  fun _ _ => { exec_success := true, exec_error := "" }

/-- Witness for C7: a concrete runner, verdict and candidate accepted end to
end, plus a concrete unsatisfiable verdict. -/
theorem solution_accept_iff_witness :
    ((process_solution runnerW (some true) (some "def execute_program(t): pass")).1
        = "Solution accepted." ↔
      some true = some true ∧ ∃ p, (some "def execute_program(t): pass" : Option String) = some p ∧
        strContains p "def execute_program" = true ∧
        (runnerW p 2).exec_success = true) ∧
    process_solution runnerW (some false) none =
      ("UNSATISFIABLE constraints acknowledged.", false, none) :=
  ⟨(solution_accept_iff runnerW (some true) (some "def execute_program(t): pass")).1,
   (solution_accept_iff runnerW (some false) none).2.2.1 rfl⟩

/-! ## Scheduling view (TestCaseManager.get_test_case_scheduling_information
and get_all_scheduling_information, testcase.py:855-1046) -/

/-- `SCHEDULING_FORMAT_REMINDER` (common.py:224-236). -/
def SCHEDULING_FORMAT_REMINDER : String :=
  "Format Remind: "
  ++ wrap_between_tags "function_call_chain"
      "{filename}[func_name (overall line coverage until now)][line coverage achieved by this execution]"
  ++ "\n"
  ++ wrap_between_tags "historical_information" "[failed times]/[total selected times](ratio)"
  ++ "\n\n This following is the information of each test case: "

/-- One rendered chain element
`file[func (ceil(l/total*100)%)][ceil(a/b*100)%]` (testcase.py:1010, 1023). -/
def chainPartStr (part : String × String × (Nat × Nat) × (Nat × Nat)) : String :=
  part.1 ++ "[" ++ part.2.1 ++ " (" ++
    pyIntToStr (ceilPct part.2.2.1.1 part.2.2.1.2) ++ "%)][" ++
    pyIntToStr (ceilPct part.2.2.2.1 part.2.2.2.2) ++ "%]"

/-- The per-function loop of testcase.py:959-974: normalize the path, fetch
its collector from the registry, and compute line and executed-block
coverage.  As in `Coverage.collect_trace`, lazily constructing a collector
from the filesystem is modelled as an error.  Returns the chain parts and the
per-function coverage fractions `_l / _total`. -/
def schedChainParts (cov : List (String × TraceCollector)) :
    List (String × String × List Nat) →
    Except String (List (String × String × (Nat × Nat) × (Nat × Nat)) × List ℚ)
  | [] => .ok ([], [])
  | (relpath, func_name, blocks) :: rest =>
    let nf := normpath relpath
    match alookup nf cov with
    | none => .error "lazy TraceCollector construction from the filesystem is not modelled"
    | some fc =>
      match fc.get_function_line_cov func_name with
      | .error e => .error e
      | .ok lt =>
        match fc.get_exec_block_cov func_name blocks with
        | .error e => .error e
        | .ok ebc =>
          match schedChainParts cov rest with
          | .error e => .error e
          | .ok pr => .ok ((nf, func_name, lt, ebc) :: pr.1, ((lt.1 : ℚ) / (lt.2 : ℚ)) :: pr.2)

/-- Stable ascending insertion by coverage fraction (Python
`indexed_coverage.sort(key=lambda x: x[1])`). -/
def insertByFrac (x : Nat × ℚ) : List (Nat × ℚ) → List (Nat × ℚ)
  | [] => [x]
  | y :: t => if y.2 < x.2 then y :: insertByFrac x t else x :: y :: t

/-- Stable sort by coverage fraction. -/
def sortByFrac (l : List (Nat × ℚ)) : List (Nat × ℚ) := l.foldr insertByFrac []

/-- Ascending insertion of a natural (Python `lowest_indices.sort()`). -/
def insertNat (x : Nat) : List Nat → List Nat
  | [] => [x]
  | y :: t => if y < x then y :: insertNat x t else x :: y :: t

/-- Ascending sort of naturals. -/
def sortNats (l : List Nat) : List Nat := l.foldr insertNat []

/-- The string construction of the elided call chain
(testcase.py:1007-1019), walking the selected parts paired with their
original indices and inserting `=>[..k funcs omitted..]` markers. -/
def chainLongAux : List ((String × String × (Nat × Nat) × (Nat × Nat)) × Nat) →
    Bool → String
  | [], _ => ""
  | (p, idx) :: rest, isFirst =>
    (if isFirst then "" else "=>") ++ chainPartStr p ++
    (match rest with
     | [] => ""
     | (_, idx2) :: _ =>
       if idx2 - idx > 1 then
         "=>[.." ++ natToString (idx2 - idx - 1) ++ " funcs omitted..]"
       else "") ++
    chainLongAux rest false

/-- The function-call-chain string (testcase.py:976-1026): when more than
`SHOW_FUNC_NUM = 20` functions are in the chain, keep the first, the last,
and the 18 lowest-coverage middle functions. -/
def funcCallChainStr (parts : List (String × String × (Nat × Nat) × (Nat × Nat)))
    (fracs : List ℚ) : String :=
  if parts.length > 20 then
    let last_index := parts.length - 1
    let indexed := ((List.range fracs.length).zip fracs).filter
      (fun p => p.1 ≠ 0 ∧ p.1 ≠ last_index)
    let sortedIdx := sortByFrac indexed
    let middle := (sortedIdx.take 18).map Prod.fst
    let lowest := sortNats ([0] ++ middle ++ [last_index])
    let selected := lowest.map (fun i => parts.getD i ("", "", (0, 0), (0, 0)))
    "(The call chain is with " ++ natToString parts.length ++
      " funcs. Only showing the funcs with lowest coverage in the middle of the chain)\n" ++
      chainLongAux (selected.zip lowest) true
  else strJoin "=>" (parts.map chainPartStr)

/-- `TestCaseManager.get_test_case_scheduling_information`
(testcase.py:920-1046).  The returned pair is `(info, weight)`.  The final
Python statement is `return info, weight + 1 if tc.new_coverage else 0`,
whose conditional expression — by Python operator precedence — covers the
whole of `weight + 1`, which the last line below mirrors. -/
def TestCaseManager.get_test_case_scheduling_information (mgr : TestCaseManager)
    (cov : List (String × TraceCollector)) (tc_id : Int) : Except String (String × ℚ) :=
  match alookup tc_id mgr.test_cases with
  | none => .error "Test case with ID not found."
  | some tc =>
    let info1 := wrap_between_tags "test_case_id" (pyIntToStr tc.id)
    let info2 := info1 ++ wrap_between_tags "src_test_case_id"
        (match tc.src_id with
         | some s => pyIntToStr s
         | none => "None")
    let path_constraint :=
      if tc.is_target_covered then pyStrOpt tc.target_path_constraint else "None"
    let info3 := info2 ++ wrap_between_tags "path_constraint" path_constraint
    let info4 := info3 ++ wrap_between_tags "execution_information" (pyStrOpt tc.exec_code)
    match tc.execution_trace with
    | none => .error "AttributeError: NoneType object has no attribute strip"
    | some trace =>
      match schedChainParts cov (trace_compress trace) with
      | .error e => .error e
      | .ok pf =>
        let info5 := info4 ++
          wrap_between_tags "function_call_chain" (funcCallChainStr pf.1 pf.2)
        match tc.get_historical_information with
        | .error e => .error e
        | .ok hist =>
          let fail_frac : ℚ := if hist.2 > 0 then (hist.1 : ℚ) / (hist.2 : ℚ) else 0
          let weight := 1 - fail_frac
          let info6 := info5 ++ wrap_between_tags "historical_information"
              (pyIntToStr hist.1 ++ "/" ++ pyIntToStr hist.2 ++ "(" ++
                formatPercent1 fail_frac ++ ")")
          .ok (info6, if tc.new_coverage then weight + 1 else 0)

/-- The valuable-case collection loop of `get_all_scheduling_information`
(testcase.py:867-882): for each valuable case, assert it has an input
program, fetch `(info, weight)` and wrap the info in its XML tag. -/
def collectValuable (mgr : TestCaseManager) (cov : List (String × TraceCollector)) :
    List (Int × TestCase) → Except String (List (String × ℚ × Int))
  | [] => .ok []
  | (tc_id, tc) :: rest =>
    if tc.is_valuable then
      if tc.exec_code = none then .error "assert tc.exec_code is not None"
      else
        match mgr.get_test_case_scheduling_information cov tc_id with
        | .error e => .error e
        | .ok iw =>
          match collectValuable mgr cov rest with
          | .error e => .error e
          | .ok tl => .ok ((wrap_between_tags "test_case_information" iw.1, iw.2, tc_id) :: tl)
    else collectValuable mgr cov rest

/-- The raw scheduling text of a list of per-case info strings:
`"\n\n".join([SCHEDULING_FORMAT_REMINDER] + infos)` (testcase.py:884-887). -/
def schedule_render (infos : List String) : String :=
  strJoin "\n\n" (SCHEDULING_FORMAT_REMINDER :: infos)

/-- Stable descending insertion by the key `(weight, id)` (Python
`sort(key=lambda x: (x[1], x[2]), reverse=True)`). -/
def insertDescByKey (x : String × ℚ × Int) :
    List (String × ℚ × Int) → List (String × ℚ × Int)
  | [] => [x]
  | y :: t =>
    if y.2.1 > x.2.1 ∨ (y.2.1 = x.2.1 ∧ y.2.2 > x.2.2) then y :: insertDescByKey x t
    else x :: y :: t

/-- Stable descending sort by `(weight, id)`. -/
def pySortDesc (l : List (String × ℚ × Int)) : List (String × ℚ × Int) :=
  l.foldr insertDescByKey []

/-- The truncation loop of `get_all_scheduling_information`
(testcase.py:896-916), including both `assert`s; returns the view as an
ordered `id → info` association. -/
def truncLoop : List (String × ℚ × Int) → String → List (String × ℚ × Int) →
    Except String (List (Int × String))
  | [], _, _ => .error "assert False: should not reach here"
  | (info, w, tc_id) :: rest, truncated, selected =>
    if estimate_text_token (truncated ++ info) > 180 * 1000 then
      if selected.length > 0 then .ok (selected.map (fun t => (t.2.2, t.1)))
      else .error "assert len(selected_tc_ids) > 0"
    else truncLoop rest (truncated ++ info ++ "\n\n") (selected ++ [(info, w, tc_id)])

/-- `TestCaseManager.get_all_scheduling_information` (testcase.py:855-918). -/
def TestCaseManager.get_all_scheduling_information (mgr : TestCaseManager)
    (cov : List (String × TraceCollector)) : Except String (List (Int × String)) :=
  if mgr.test_cases = [] then .error "No test cases available."
  else
    match collectValuable mgr cov mgr.test_cases with
    | .error e => .error e
    | .ok valuable =>
      let raw_str := schedule_render (valuable.map (fun t => t.1))
      if estimate_text_token raw_str > 180 * 1000 then
        truncLoop (pySortDesc valuable) (SCHEDULING_FORMAT_REMINDER ++ "\n\n") []
      else .ok (valuable.map (fun t => (t.2.2, t.1)))

/-- The scheduling weight exactly as the claim (and spec §3) states it:
`(1 - failure_ratio) + (1 if new_coverage else 0)` with
`failure_ratio = (selected - successful) / selected`, 0 when `selected = 0`. -/
def spec_scheduling_weight (tc : TestCase) : ℚ :=
  let failure_frac : ℚ :=
    if tc.selected_cnt > 0 then
      ((tc.selected_cnt - tc.successful_generation_cnt : Int) : ℚ) / ((tc.selected_cnt : Int) : ℚ)
    else 0
  (1 - failure_frac) + (if tc.new_coverage then 1 else 0)

/-- A valuable test case without new coverage: `is_target_covered` but
`new_coverage = False`, never yet selected. -/
def schedBugTc : TestCase :=
  { id := 1, src_id := some 0, is_target_covered := true, new_coverage := false,
    is_satisfiable := true, exec_code := some "x", execution_trace := some "",
    target_path_constraint := some "x > 5", states := [.FINISHED] }

/-- A corpus containing only `schedBugTc`. -/
def schedBugMgr : TestCaseManager :=
  { out_dir := "o", test_cases := [(1, schedBugTc)], next_testcase_id := 2 }

/-- C1: at the failing input — a valuable case with `new_coverage = False` —
the code computes scheduling weight 0 (the Python conditional expression
`weight + 1 if tc.new_coverage else 0` spans the whole of `weight + 1`,
discarding the computed `weight` in the else arm), while the claimed formula
gives `1 - failure_ratio = 1`. -/
theorem scheduling_weight_precedence_bug :
    schedBugTc.is_valuable = true ∧
    (schedBugMgr.get_test_case_scheduling_information [] 1).map Prod.snd = .ok 0 ∧
    spec_scheduling_weight schedBugTc = 1 := by
  refine ⟨rfl, by decide, ?_⟩
  norm_num [spec_scheduling_weight, schedBugTc]

/-! ## C4: the token budget of the scheduling view -/

theorem strJoin_append_single (sep h x : String) (t : List String) :
    strJoin sep ((h :: t) ++ [x]) = strJoin sep (h :: t) ++ sep ++ x := by
  show (t ++ [x]).foldl (fun acc y => acc ++ sep ++ y) h =
    t.foldl (fun acc y => acc ++ sep ++ y) h ++ sep ++ x
  rw [List.foldl_append]
  rfl

theorem schedule_render_append (infos : List String) (x : String) :
    schedule_render (infos ++ [x]) = schedule_render infos ++ "\n\n" ++ x := by
  show strJoin "\n\n" (SCHEDULING_FORMAT_REMINDER :: (infos ++ [x])) = _
  have hshape : SCHEDULING_FORMAT_REMINDER :: (infos ++ [x]) =
      (SCHEDULING_FORMAT_REMINDER :: infos) ++ [x] := by simp
  rw [hshape, strJoin_append_single]
  rfl

theorem truncLoop_spec (full : List (String × ℚ × Int)) :
    ∀ (rest : List (String × ℚ × Int)) (j : Nat) (view : List (Int × String)),
      rest = full.drop j → j ≤ full.length →
      (j ≠ 0 →
        estimate_text_token (schedule_render ((full.take j).map (fun t => t.1))) ≤ 180 * 1000) →
      truncLoop rest (schedule_render ((full.take j).map (fun t => t.1)) ++ "\n\n")
        (full.take j) = .ok view →
      view ≠ [] ∧
      ∃ k, k ≤ full.length ∧ view = ((full.take k).map (fun t => (t.2.2, t.1))) ∧
        estimate_text_token (schedule_render ((full.take k).map (fun t => t.1))) ≤ 180 * 1000 ∧
        (k < full.length →
          estimate_text_token
            (schedule_render ((full.take (k + 1)).map (fun t => t.1))) > 180 * 1000) := by
  intro rest
  induction rest with
  | nil =>
    intro j view _ _ _ h
    exact absurd h (by simp [truncLoop])
  | cons hd tl ih =>
    intro j view hrest hj hband h
    obtain ⟨info, w, tcid⟩ := hd
    have hlen : j < full.length := by
      by_contra hge
      push_neg at hge
      rw [List.drop_eq_nil_of_le hge] at hrest
      exact absurd hrest (by simp)
    have hget : full.drop j = full[j] :: full.drop (j + 1) :=
      List.drop_eq_getElem_cons hlen
    rw [hget] at hrest
    rw [List.cons.injEq] at hrest
    obtain ⟨hhd, htl⟩ := hrest
    have htake : full.take (j + 1) = full.take j ++ [(info, w, tcid)] := by
      rw [List.take_succ]
      congr 1
      rw [List.getElem?_eq_getElem hlen]
      simp only [Option.toList_some]
      exact congrArg (fun a => [a]) hhd.symm
    have hmaps : (full.take (j + 1)).map (fun t => t.1) =
        ((full.take j).map (fun t => t.1)) ++ [info] := by
      rw [htake, List.map_append]
      rfl
    have hrender : schedule_render ((full.take (j + 1)).map (fun t => t.1)) =
        schedule_render ((full.take j).map (fun t => t.1)) ++ "\n\n" ++ info := by
      rw [hmaps, schedule_render_append]
    simp only [truncLoop] at h
    split at h
    · rename_i hover
      split at h
      · rename_i hpos
        simp only [Except.ok.injEq] at h
        have hj0 : j ≠ 0 := by
          intro hj00
          subst hj00
          simp at hpos
        refine ⟨?_, j, hj, h.symm, hband hj0, ?_⟩
        · rw [← h]
          intro hemp
          rw [List.map_eq_nil_iff] at hemp
          rw [hemp] at hpos
          simp at hpos
        · intro _
          rw [hrender]
          exact hover
      · exact absurd h (by simp)
    · rename_i hunder
      have h2 : truncLoop tl
          (schedule_render ((full.take (j + 1)).map (fun t => t.1)) ++ "\n\n")
          (full.take (j + 1)) = .ok view := by
        rw [hrender, htake]
        exact h
      refine ih (j + 1) view htl (by omega) ?_ h2
      intro _
      rw [hrender]
      exact Nat.le_of_not_lt hunder

/-- C4: whenever `get_all_scheduling_information` returns a view, the view's
rendered scheduling text fits the 180 000-token estimate; and when the full
valuable view overflows the budget, the returned view is a non-empty prefix
of the valuable cases sorted by descending `(weight, id)`, cut exactly where
the next case would overflow. -/
theorem scheduling_view_budget (mgr : TestCaseManager)
    (cov : List (String × TraceCollector)) (view : List (Int × String))
    (h : mgr.get_all_scheduling_information cov = .ok view) :
    ∃ vs, collectValuable mgr cov mgr.test_cases = .ok vs ∧
      estimate_text_token (schedule_render (view.map Prod.snd)) ≤ 180 * 1000 ∧
      (estimate_text_token (schedule_render (vs.map (fun t => t.1))) > 180 * 1000 →
        view ≠ [] ∧
        ∃ k, k ≤ (pySortDesc vs).length ∧
          view = (((pySortDesc vs).take k).map (fun t => (t.2.2, t.1))) ∧
          (k < (pySortDesc vs).length →
            estimate_text_token
              (schedule_render (((pySortDesc vs).take (k + 1)).map (fun t => t.1)))
              > 180 * 1000)) := by
  simp only [TestCaseManager.get_all_scheduling_information] at h
  split at h
  · exact absurd h (by simp)
  · split at h
    · exact absurd h (by simp)
    · rename_i vs hvs
      refine ⟨vs, hvs, ?_⟩
      split at h
      · rename_i hover
        have hspec := truncLoop_spec (pySortDesc vs) (pySortDesc vs) 0 view
          (by simp) (by simp) (by simp)
          (by exact h)
        obtain ⟨hne, k, hk, hview, hfit, hnext⟩ := hspec
        have hmaps : view.map Prod.snd = ((pySortDesc vs).take k).map (fun t => t.1) := by
          rw [hview, List.map_map]
          rfl
        refine ⟨?_, ?_⟩
        · rw [hmaps]
          exact hfit
        · intro _
          exact ⟨hne, k, hk, hview, hnext⟩
      · rename_i hunder
        simp only [Except.ok.injEq] at h
        have hmaps : view.map Prod.snd = vs.map (fun t => t.1) := by
          rw [← h, List.map_map]
          rfl
        refine ⟨?_, ?_⟩
        · rw [hmaps]
          omega
        · intro hgt
          exact absurd hgt (by omega)

/-- A valuable seed case with new coverage, for exercising the scheduling view. -/
def schedWTc : TestCase :=
  { id := 1, src_id := some 0, is_target_covered := true, new_coverage := true,
    is_satisfiable := true, exec_code := some "x", execution_trace := some "",
    target_path_constraint := some "x > 5", states := [.FINISHED] }

/-- A corpus containing only `schedWTc`. -/
def schedWMgr : TestCaseManager :=
  { out_dir := "o", test_cases := [(1, schedWTc)], next_testcase_id := 2 }

/-- The scheduling view that `get_all_scheduling_information` produces
for `schedWMgr`. -/
def schedWView : List (Int × String) :=
  [(1, "<test_case_information><test_case_id>1</test_case_id><src_test_case_id>0</src_test_case_id><path_constraint>x > 5</path_constraint><execution_information>x</execution_information><function_call_chain></function_call_chain><historical_information>0/0(0.0%)</historical_information></test_case_information>")]

set_option maxRecDepth 40000 in
/-- Witness for C4: the one-case corpus `schedWMgr` yields the view
`schedWView`, which respects the token budget. -/
theorem scheduling_view_budget_witness :
    ∃ vs, collectValuable schedWMgr [] schedWMgr.test_cases = .ok vs ∧
      estimate_text_token (schedule_render (schedWView.map Prod.snd)) ≤ 180 * 1000 ∧
      (estimate_text_token (schedule_render (vs.map (fun t => t.1))) > 180 * 1000 →
        schedWView ≠ [] ∧
        ∃ k, k ≤ (pySortDesc vs).length ∧
          schedWView = (((pySortDesc vs).take k).map (fun t => (t.2.2, t.1))) ∧
          (k < (pySortDesc vs).length →
            estimate_text_token
              (schedule_render (((pySortDesc vs).take (k + 1)).map (fun t => t.1)))
              > 180 * 1000)) :=
  scheduling_view_budget schedWMgr [] schedWView (by decide)

/-! ## C3: YAML round trip of a test case (testcase.py:481-588, 162-224)

The YAML text layer itself (ruamel/pyyaml `dump`/`load`) is an external
library, not part of this repository; it is modelled as an exact inverse pair
on the value domain the converters produce (null / bool / int / str / list of
str / nested mappings), which also covers `load_from_file`'s byte-level
filtering of NUL/EOT/DEL: YAML escapes control characters in the dumped text,
so the filter does not alter a dumped document.  Everything else —
`to_dict`/`from_dict`, `process_dict_for_yaml`/`process_dict_from_yaml`, the
`target_file_lines` and `states` and `usage` converters, and the `time_taken`
override at the end of `load_from_file` — is translated from the source. -/

/-- Split at the first occurrence of a separator, Python `s.split(sep, 1)`;
`none` when the separator is absent (where Python returns a 1-element list,
so that 2-name unpacking raises `ValueError`). -/
def splitOnceChar (sep : Char) : List Char → Option (List Char × List Char)
  | [] => none
  | c :: t =>
    if c = sep then some ([], t)
    else (splitOnceChar sep t).map (fun p => (c :: p.1, p.2))

/-- Python f-string rendering of an `int | None` value (`None` prints as
`"None"`). -/
def pyOptIntStr : Option Int → String
  | none => "None"
  | some n => pyIntToStr n

/-- `TestCaseYAML.target_file_lines_to_str` (testcase.py:55-63): `None` when
the path is `None`, otherwise `f"{file_path}:{line_range[0]}-{line_range[1]}"`. -/
def target_file_lines_to_str
    (fl : Option String × (Option Int × Option Int)) : Option String :=
  match fl.1 with
  | none => none
  | some fp => some (fp ++ ":" ++ pyOptIntStr fl.2.1 ++ "-" ++ pyOptIntStr fl.2.2)

/-- `TestCaseYAML.str_to_target_file_lines` (testcase.py:65-74):
`split(":", 1)`, `split("-", 1)`, `int(...)`; unpacking a 1-element split and
a failed `int()` both raise `ValueError`. -/
def str_to_target_file_lines (v : String) :
    Except String (Option String × (Option Int × Option Int)) :=
  if v = "" then .ok (none, (none, none))
  else
    match splitOnceChar ':' v.data with
    | none => .error "ValueError: not enough values to unpack"
    | some (fp, lr) =>
      match splitOnceChar '-' lr with
      | none => .error "ValueError: not enough values to unpack"
      | some (s, e) =>
        match pyInt (String.mk s), pyInt (String.mk e) with
        | some a, some b => .ok (some (String.mk fp), (some a, some b))
        | _, _ => .error "ValueError: invalid literal for int() with base 10"

/-- `process_dict_from_yaml`'s `target_file_lines` branch (testcase.py:197-203). -/
def tfl_from_yaml (v : Option String) :
    Except String (Option String × (Option Int × Option Int)) :=
  match v with
  | none => .ok (none, (none, none))
  | some s => str_to_target_file_lines s

/-- `[TestcaseState[state] for state in result["states"]]`
(testcase.py:211); a `KeyError` aborts the load. -/
def statesFromNames : List String → Except String (List TestcaseState)
  | [] => .ok []
  | s :: t =>
    match TestcaseState.fromName s with
    | none => .error "KeyError"
    | some st => (statesFromNames t).map (fun r => st :: r)

/-- The `usage` field of the dumped YAML document: either the text block
produced by `format_usage_dict` (represented by its parsed mapping structure,
YAML dump/load being the modelled-identity external layer) or the empty dict,
which `process_dict_for_yaml` leaves as a dict. -/
inductive UsageYaml where
  | text (t : List (String × UsageTree))
  | emptyDict
deriving DecidableEq, Repr

/-- Serialized form of one usage value (`format_usage_dict`'s `format_value`,
testcase.py:88-96): a `Usage` dumps to its field mapping, a per-state group to
a nested mapping of dumped `Usage` values. -/
def dumpUsageEntry : UsageEntry → UsageTree
  | .single u => .leaf u
  | .group es => .node es

/-- `process_dict_for_yaml`'s `usage` branch (testcase.py:182-183): a
non-empty dict is rendered with `format_usage_dict`; an empty dict is left
alone; an unparsed string is left alone (it is the YAML rendering of its
structure). -/
def usageToYaml : UsageField → UsageYaml
  | .parsed [] => .emptyDict
  | .parsed d => .text (d.map (fun ke => (ke.1, dumpUsageEntry ke.2)))
  | .unparsed raw => .text raw

/-- `TestCaseYAML.parse_usage_dict` (testcase.py:106-140): a mapping value
containing a `TOTAL` key is rebuilt as a per-state group; one without is fed
to `Usage.model_validate`, which raises on a mapping of mappings (modelled as
an error), aborting the whole parse. -/
def parseUsageText : List (String × UsageTree) → Except String (List (String × UsageEntry))
  | [] => .ok []
  | (k, .leaf u) :: t => (parseUsageText t).map (fun r => (k, .single u) :: r)
  | (k, .node es) :: t =>
    if es.any (fun e => e.1 = "TOTAL") then
      (parseUsageText t).map (fun r => (k, .group es) :: r)
    else .error "ValidationError"

/-- `process_dict_from_yaml`'s `usage` branch (testcase.py:213-222): a
non-blank string is parsed with `parse_usage_dict`; a raised exception is
caught and leaves the raw string in place. -/
def usageFromYaml : UsageYaml → UsageField
  | .emptyDict => .parsed []
  | .text [] => .unparsed []
  | .text (e :: t) =>
    match parseUsageText (e :: t) with
    | .ok d => .parsed d
    | .error _ => .unparsed (e :: t)

/-- The YAML document written by `save_to_disk` (`to_dict` followed by the
modelled-identity YAML dump): the dataclass fields minus
`_out_dir`/`_in_setattr`, with `target_file_lines`, `states` and `usage`
converted by `process_dict_for_yaml`. -/
structure TestCaseFile where
  id : Int
  src_id : Option Int
  create_time : String
  time_taken : Option Int
  states : List String
  is_target_covered : Bool
  new_coverage : Bool
  newly_covered_lines : Int
  is_satisfiable : Bool
  is_crash : Bool
  is_hang : Bool
  usage : UsageYaml
  target_branch : Option String
  target_file_lines : Option String
  target_lines_content : Option String
  justification : Option String
  target_path_constraint : Option String
  selected_cnt : Int
  successful_generation_cnt : Int
  exec_code : Option String
  returncode : Option Int
  src_execution_summary : Option String
  crash_info : Option String
  execution_trace : Option String
  execution_summary : Option String
  src_exec_code : Option String
  src_execution_trace : Option String
deriving DecidableEq, Repr

/-- `TestCase.to_dict` (testcase.py:427-437): `asdict` minus the private
fields, then `process_dict_for_yaml`.  String fields holding newlines are
wrapped in `LiteralScalarString`, which preserves their content. -/
def TestCase.to_dict (tc : TestCase) : TestCaseFile :=
  { id := tc.id
    src_id := tc.src_id
    create_time := tc.create_time
    time_taken := tc.time_taken
    states := tc.states.map TestcaseState.toName
    is_target_covered := tc.is_target_covered
    new_coverage := tc.new_coverage
    newly_covered_lines := tc.newly_covered_lines
    is_satisfiable := tc.is_satisfiable
    is_crash := tc.is_crash
    is_hang := tc.is_hang
    usage := usageToYaml tc.usage
    target_branch := tc.target_branch
    target_file_lines := target_file_lines_to_str tc.target_file_lines
    target_lines_content := tc.target_lines_content
    justification := tc.justification
    target_path_constraint := tc.target_path_constraint
    selected_cnt := tc.selected_cnt
    successful_generation_cnt := tc.successful_generation_cnt
    exec_code := tc.exec_code
    returncode := tc.returncode
    src_execution_summary := tc.src_execution_summary
    crash_info := tc.crash_info
    execution_trace := tc.execution_trace
    execution_summary := tc.execution_summary
    src_exec_code := tc.src_exec_code
    src_execution_trace := tc.src_execution_trace }

/-- `TestCase.from_dict` (testcase.py:440-450) as invoked by
`load_from_file` (testcase.py:547-588): `process_dict_from_yaml`
(`target_file_lines` first, then `states`, then the guarded `usage` parse),
then `cls(**processed_data)`.  The `__setattr__` hook may clobber
`time_taken` during construction, which is why `load_from_file` re-assigns
`data["time_taken"]` afterwards; the net effect is that the loaded case
carries the file's `time_taken`, as built here. -/
def TestCase.from_dict (f : TestCaseFile) : Except String TestCase :=
  match tfl_from_yaml f.target_file_lines with
  | .error e => .error e
  | .ok tfl =>
    match statesFromNames f.states with
    | .error e => .error e
    | .ok sts =>
      .ok { id := f.id
            src_id := f.src_id
            create_time := f.create_time
            time_taken := f.time_taken
            states := sts
            is_target_covered := f.is_target_covered
            new_coverage := f.new_coverage
            newly_covered_lines := f.newly_covered_lines
            is_satisfiable := f.is_satisfiable
            is_crash := f.is_crash
            is_hang := f.is_hang
            usage := usageFromYaml f.usage
            target_branch := f.target_branch
            target_file_lines := tfl
            target_lines_content := f.target_lines_content
            justification := f.justification
            target_path_constraint := f.target_path_constraint
            selected_cnt := f.selected_cnt
            successful_generation_cnt := f.successful_generation_cnt
            exec_code := f.exec_code
            returncode := f.returncode
            src_execution_summary := f.src_execution_summary
            crash_info := f.crash_info
            execution_trace := f.execution_trace
            execution_summary := f.execution_summary
            src_exec_code := f.src_exec_code
            src_execution_trace := f.src_execution_trace }

/-- Every per-state group in an in-memory (`parsed`) usage dict carries a
`TOTAL` key — true of every dict `TestCase.add_usage` builds. -/
def usageGroupsHaveTotal : UsageField → Bool
  | .parsed d =>
    d.all (fun ke =>
      match ke.2 with
      | .single _ => true
      | .group es => es.any (fun e => e.1 = "TOTAL"))
  | .unparsed _ => false

theorem splitOnceChar_append (sep : Char) (A B : List Char) (h : sep ∉ A) :
    splitOnceChar sep (A ++ sep :: B) = some (A, B) := by
  induction A with
  | nil => simp [splitOnceChar]
  | cons c t ih =>
    have hc : ¬ c = sep := by
      intro hcs
      exact h (by simp [hcs])
    have ht : sep ∉ t := fun hm => h (by simp [hm])
    simp [splitOnceChar, hc, ih ht]

theorem natToString_no_dash (n : Nat) : '-' ∉ (natToString n).data := by
  intro hm
  have hall := natToDigitsAux_all_digits n
  rw [List.all_eq_true] at hall
  exact absurd (hall _ hm) (by decide)

theorem pyStripList_eq_self_of_no_space {l : List Char}
    (h : ∀ c ∈ l, pyIsSpace c = false) : pyStripList l = l := by
  unfold pyStripList
  rw [dropWhile_eq_self_of_false h,
    dropWhile_eq_self_of_false (by intro c hc; exact h c (by simpa using hc)),
    List.reverse_reverse]

/-- Round trip of Python's int printing and parsing, for every integer. -/
theorem pyInt_pyIntToStr (i : Int) : pyInt (pyIntToStr i) = some i := by
  by_cases hneg : i < 0
  · have hstr : pyIntToStr i = "-" ++ natToString i.natAbs := by
      simp [pyIntToStr, hneg]
    have hdata : (pyIntToStr i).data = '-' :: (natToDigitsAux i.natAbs []) := by
      rw [hstr]
      rfl
    have hall := natToDigitsAux_all_digits i.natAbs
    rw [List.all_eq_true] at hall
    unfold pyInt
    rw [hdata, pyStripList_eq_self_of_no_space]
    · simp only [if_pos rfl]
      have hparse := parseDigits_natToString i.natAbs
      have : parseDigits (natToDigitsAux i.natAbs []) = some i.natAbs := hparse
      rw [this]
      show some (-(i.natAbs : Int)) = some i
      congr 1
      omega
    · intro c hc
      rcases List.mem_cons.mp hc with rfl | hmem
      · decide
      · exact digit_not_space (hall c hmem)
  · have hstr : pyIntToStr i = natToString i.natAbs := by
      unfold pyIntToStr
      rw [if_neg hneg]
    rw [hstr, pyInt_natToString]
    congr 1
    omega

/-- The `target_file_lines` string converters are inverse on a colon-free
path with both endpoints present and a non-negative start line. -/
theorem str_to_target_file_lines_round (p : String) (a b : Int)
    (hpc : ':' ∉ p.data) (ha : 0 ≤ a) :
    str_to_target_file_lines (p ++ ":" ++ pyIntToStr a ++ "-" ++ pyIntToStr b) =
      .ok (some p, (some a, some b)) := by
  have hadata : (pyIntToStr a).data = (natToString a.natAbs).data := by
    simp [pyIntToStr, not_lt.mpr ha, Int.not_lt.mpr ha]
  have hdata : (p ++ ":" ++ pyIntToStr a ++ "-" ++ pyIntToStr b).data =
      p.data ++ ':' :: ((pyIntToStr a).data ++ '-' :: (pyIntToStr b).data) := by
    simp [String.data_append, List.append_assoc]
  have hne : p ++ ":" ++ pyIntToStr a ++ "-" ++ pyIntToStr b ≠ "" := by
    intro hv
    have := congrArg String.data hv
    rw [hdata] at this
    simp at this
  have hnodash : '-' ∉ (pyIntToStr a).data := by
    rw [hadata]
    exact natToString_no_dash a.natAbs
  have hsa : (String.mk (pyIntToStr a).data : String) = pyIntToStr a := rfl
  have hsb : (String.mk (pyIntToStr b).data : String) = pyIntToStr b := rfl
  have hsp : (String.mk p.data : String) = p := rfl
  unfold str_to_target_file_lines
  rw [if_neg hne, hdata]
  simp only [splitOnceChar_append _ _ _ hpc, splitOnceChar_append _ _ _ hnodash,
    hsa, hsb, hsp, pyInt_pyIntToStr]

theorem statesFromNames_map_toName (l : List TestcaseState) :
    statesFromNames (l.map TestcaseState.toName) = .ok l := by
  induction l with
  | nil => rfl
  | cons s t ih =>
    simp [statesFromNames, TestcaseState.fromName_toName, ih, Except.map]

theorem parseUsageText_dump (d : List (String × UsageEntry))
    (h : d.all (fun ke =>
      match ke.2 with
      | .single _ => true
      | .group es => es.any (fun e => e.1 = "TOTAL")) = true) :
    parseUsageText (d.map (fun ke => (ke.1, dumpUsageEntry ke.2))) = .ok d := by
  induction d with
  | nil => rfl
  | cons e t ih =>
    obtain ⟨k, v⟩ := e
    rw [List.all_cons, Bool.and_eq_true] at h
    cases v with
    | single u =>
      show Except.map (fun r => (k, UsageEntry.single u) :: r)
          (parseUsageText (List.map (fun ke => (ke.1, dumpUsageEntry ke.2)) t)) =
        .ok ((k, UsageEntry.single u) :: t)
      rw [ih h.2]
      rfl
    | group es =>
      have h1 : es.any (fun e => e.1 = "TOTAL") = true := h.1
      show (if es.any (fun e => e.1 = "TOTAL") then
          Except.map (fun r => (k, UsageEntry.group es) :: r)
            (parseUsageText (List.map (fun ke => (ke.1, dumpUsageEntry ke.2)) t))
        else Except.error "ValidationError") = .ok ((k, UsageEntry.group es) :: t)
      rw [if_pos h1, ih h.2]
      rfl

theorem usage_round_trip (u : UsageField) (h : usageGroupsHaveTotal u = true) :
    usageFromYaml (usageToYaml u) = u := by
  cases u with
  | unparsed raw => exact absurd h (by simp [usageGroupsHaveTotal])
  | parsed d =>
    cases d with
    | nil => rfl
    | cons e t =>
      have hp := parseUsageText_dump (e :: t) h
      simp only [usageToYaml, List.map_cons, usageFromYaml]
      rw [List.map_cons] at hp
      rw [hp]

theorem tfl_round_trip (tc : TestCase)
    (htfl : tc.target_file_lines = (none, (none, none)) ∨
      ∃ p a b, tc.target_file_lines = (some p, (some a, some b)) ∧
        ':' ∉ p.data ∧ 0 ≤ a) :
    tfl_from_yaml (target_file_lines_to_str tc.target_file_lines) =
      .ok tc.target_file_lines := by
  rcases htfl with h | ⟨p, a, b, h, hpc, ha⟩
  · rw [h]
    rfl
  · rw [h]
    simp only [target_file_lines_to_str, pyOptIntStr, tfl_from_yaml]
    exact str_to_target_file_lines_round p a b hpc ha

/-- C3 (counterexample): a test case whose target path contains a colon is
saved as `"a:b:3-5"`, and loading splits at the first colon, so `int("b:3")`
raises `ValueError` and `load_from_file` fails: `load(save(case)) = case`
does not hold for every test case. -/
theorem testcase_round_trip_counterexample :
    TestCase.from_dict (TestCase.to_dict
      { id := 7, target_file_lines := (some "a:b", (some 3, some 5)) }) =
      .error "ValueError: invalid literal for int() with base 10" := by decide

/-- C3 (amended): saving then loading reproduces a test case on every
serialized field whenever (1) `target_file_lines` is the empty placeholder or
has a colon-free path with both line endpoints present and a non-negative
start line, and (2) the usage dict is in memory-built form, every per-state
group carrying a `TOTAL` key. -/
theorem testcase_round_trip
    (tc : TestCase)
    (htfl : tc.target_file_lines = (none, (none, none)) ∨
      ∃ p a b, tc.target_file_lines = (some p, (some a, some b)) ∧
        ':' ∉ p.data ∧ 0 ≤ a)
    (husage : usageGroupsHaveTotal tc.usage = true) :
    TestCase.from_dict (TestCase.to_dict tc) = .ok tc := by
  have htflrt := tfl_round_trip tc htfl
  have hstates := statesFromNames_map_toName tc.states
  have husagert := usage_round_trip tc.usage husage
  simp only [TestCase.to_dict, TestCase.from_dict]
  rw [htflrt, hstates, husagert]

/-- Witness for C3: a concrete case with a clean path, several states and a
per-state usage group round-trips exactly. -/
theorem testcase_round_trip_witness :
    TestCase.from_dict (TestCase.to_dict
      { id := 3, src_id := some 1, create_time := "t", time_taken := some 4,
        states := [.SELECT, .SUMMARIZE, .FINISHED],
        target_file_lines := (some "f.c", (some 3, some 5)),
        usage := .parsed [("TOTAL", .single {}), ("SOLVE", .group [("TOTAL", {})])],
        exec_code := some "run" }) =
      .ok { id := 3, src_id := some 1, create_time := "t", time_taken := some 4,
            states := [.SELECT, .SUMMARIZE, .FINISHED],
            target_file_lines := (some "f.c", (some 3, some 5)),
            usage := .parsed [("TOTAL", .single {}), ("SOLVE", .group [("TOTAL", {})])],
            exec_code := some "run" } :=
  testcase_round_trip _
    (Or.inr ⟨"f.c", 3, 5, rfl, by decide, by decide⟩) (by decide)

end ConcoLLMic
